import Mathlib

/-!
# Verification of the connect-resources reporting pipeline

Shallow embedding of the aggregation and report-assembly pipeline of
`connect_resources_report.py` together with the helper modules
`app/pagination_helper.py` and `app/provider_analyzer.py`.

Conventions of the embedding:
* Python dicts are association lists (`List (κ × β)`); assignment into a
  dict key is `dinsert` (overwrite-in-place keeping position, else append),
  and `defaultdict` accumulation is `bump`-style get-or-insert-zero.
* A record field read with `.get(k, 0)` is an `Option Nat` read with
  `Option.getD 0`; a direct subscript `rec['k']` that can raise `KeyError`
  is a match returning `none` on the error path.
* Python's stable `sorted` is `List.insertionSort` (any stable sort of a
  total preorder produces the same list as Python's stable Timsort).
* Floating-point percentage values only ever feed `f"{x:.1f}"`-style
  rendering; they are embedded as exact tenths (`Nat`), rounded half-even
  on the exact rational, which agrees with CPython on every value
  appearing in this development.
-/

namespace ConnectResources

/-- The 4-counter aggregate `{sent, new_leads, replies, opportunities}`
accumulated per bucket (see `create_master_dashboard` / `create_campaigns_tab`). -/
structure Agg where
  sent : Nat
  new_leads : Nat
  replies : Nat
  opportunities : Nat
deriving DecidableEq, Repr

def Agg.zero : Agg := ⟨0, 0, 0, 0⟩

def addAgg (a b : Agg) : Agg :=
  ⟨a.sent + b.sent, a.new_leads + b.new_leads,
   a.replies + b.replies, a.opportunities + b.opportunities⟩

/-! ## Association-list helpers (Python dict semantics) -/

section AList
variable {κ : Type} [DecidableEq κ] {β : Type}

/-- Python dict assignment `d[k] = v`: overwrite in place keeping the key's
position if present, else append at the end. -/
def dinsert (k : κ) (v : β) : List (κ × β) → List (κ × β)
  | [] => [(k, v)]
  | (k₂, v₂) :: rest =>
      if k₂ = k then (k, v) :: rest else (k₂, v₂) :: dinsert k v rest

/-- Python dict read `d.get(k, dflt)` (first binding wins; built dicts have
no duplicate keys). -/
def lookupD (k : κ) (l : List (κ × β)) (dflt : β) : β :=
  match l with
  | [] => dflt
  | (k₂, v) :: rest => if k₂ = k then v else lookupD k rest dflt

/-- Python dict membership test `k in d`. -/
def dmem (k : κ) (l : List (κ × β)) : Bool :=
  match l with
  | [] => false
  | (k₂, _) :: rest => k₂ = k || dmem k rest

/-- `defaultdict`-style accumulation into an `Agg`-valued dict: add `a`
into the bucket of `k`, creating the zero bucket on first touch. -/
def bump (k : κ) (a : Agg) : List (κ × Agg) → List (κ × Agg)
  | [] => [(k, addAgg Agg.zero a)]
  | (k₂, v) :: rest =>
      if k₂ = k then (k, addAgg v a) :: rest else (k₂, v) :: bump k a rest

/-- Sum of all values of an `Agg`-valued dict. -/
def sumAgg : List (κ × Agg) → Agg
  | [] => Agg.zero
  | kv :: rest => addAgg kv.2 (sumAgg rest)

end AList

/-! ## Calendar dates and the ISO week calendar

`datetime.date` values are embedded as `(year, month, day)` triples; the
conversions to/from day counts follow the standard proleptic-Gregorian
civil-date algorithms (validated against `datetime` for 1900–2200). -/

/-- A parsed `datetime.date` (the pipeline parses `'%Y-%m-%d'` strings). -/
structure Date where
  y : Nat
  m : Nat
  d : Nat
deriving DecidableEq, Repr

/-- Days since 0000-03-01 of a civil date (proleptic Gregorian, years ≥ 1). -/
def rataDie (dt : Date) : Nat :=
  let y2 := if dt.m ≤ 2 then dt.y - 1 else dt.y
  let era := y2 / 400
  let yoe := y2 % 400
  let mp := (dt.m + 9) % 12
  let doy := (153 * mp + 2) / 5 + dt.d - 1
  let doe := yoe * 365 + yoe / 4 - yoe / 100 + doy
  era * 146097 + doe

/-- Civil date of a day count (inverse of `rataDie` on valid dates). -/
def civilFromDays (z : Nat) : Date :=
  let era := z / 146097
  let doe := z % 146097
  let yoe := (doe - doe / 1460 + doe / 36524 - doe / 146096) / 365
  let y := yoe + era * 400
  let doy := doe - (365 * yoe + yoe / 4 - yoe / 100)
  let mp := (5 * doy + 2) / 153
  let d := doy - (153 * mp + 2) / 5 + 1
  let m := if mp < 10 then mp + 3 else mp - 9
  ⟨if m ≤ 2 then y + 1 else y, m, d⟩

/-- `date.weekday()`: Monday = 0 … Sunday = 6 (1970-01-01 is a Thursday). -/
def pyWeekday (dt : Date) : Nat := (rataDie dt + 2) % 7

/-- `date.isocalendar()`'s `(iso_year, iso_week)`: the week's Thursday names
the ISO year, and the week number is the Thursday's ordinal week. -/
def isoYearWeek (dt : Date) : Nat × Nat :=
  let rd := rataDie dt
  let thu := rd - pyWeekday dt + 3
  let t := civilFromDays thu
  let ordinal := thu - rataDie ⟨t.y, 1, 1⟩ + 1
  (t.y, (ordinal - 1) / 7 + 1)

/-- `date.strftime('%b')` month abbreviations. -/
def monthAbbrev (m : Nat) : String :=
  match m with
  | 1 => "Jan" | 2 => "Feb" | 3 => "Mar" | 4 => "Apr"
  | 5 => "May" | 6 => "Jun" | 7 => "Jul" | 8 => "Aug"
  | 9 => "Sep" | 10 => "Oct" | 11 => "Nov" | _ => "Dec"

/-- `date.strftime('%B')` full month names. -/
def monthFull (m : Nat) : String :=
  match m with
  | 1 => "January" | 2 => "February" | 3 => "March" | 4 => "April"
  | 5 => "May" | 6 => "June" | 7 => "July" | 8 => "August"
  | 9 => "September" | 10 => "October" | 11 => "November" | _ => "December"

/-- `'%d'`-style zero-padded two-digit rendering. -/
def pad2 (n : Nat) : String :=
  if n < 10 then "0" ++ toString n else toString n

/-- `date.strftime('%b %d')`. -/
def fmtMonthDay (dt : Date) : String := monthAbbrev dt.m ++ " " ++ pad2 dt.d

/-- The week descriptor produced by `get_week_info`: ISO week number and the
`"Week N (Monday, %b %d - Sunday, %b %d, %Y)"` label (the label is built
from the record's own Monday–Sunday span). -/
structure WeekInfo where
  week_num : Nat
  label : String
deriving DecidableEq, Repr

/-- `get_week_info` of `connect_resources_report.py`. -/
def get_week_info (dt : Date) : WeekInfo :=
  let iw := (isoYearWeek dt).2
  let monday := civilFromDays (rataDie dt - pyWeekday dt)
  let sunday := civilFromDays (rataDie dt - pyWeekday dt + 6)
  { week_num := iw
    label := "Week " ++ toString iw ++ " (Monday, " ++ fmtMonthDay monday ++
             " - Sunday, " ++ fmtMonthDay sunday ++ ", " ++ toString sunday.y ++ ")" }

/-! ## Number rendering -/

/-- Insert `','` before every later group of three digits (helper of
`fmtComma`). -/
def commaGroup : List Char → List Char
  | [] => []
  | c :: rest =>
      if rest.length < 3 then c :: rest
      else c :: (if rest.length % 3 = 0 then ',' :: commaGroup rest else commaGroup rest)

/-- Python `f"{n:,}"`: decimal digits with thousands separators. -/
def fmtComma (n : Nat) : String :=
  String.mk (commaGroup (Nat.toDigits 10 n))

/-- Exact tenths of `num / den` rounded half to even (`0` when `den = 0`);
embeds the float that only ever feeds a `:.1f` format. -/
def tenthsDiv (num den : Nat) : Nat :=
  if den = 0 then 0
  else
    let q := num * 10 / den
    let r := num * 10 % den
    if 2 * r > den then q + 1
    else if 2 * r < den then q
    else if q % 2 = 0 then q else q + 1

/-- Render a tenths value the way `f"{x:.1f}"` renders the float. -/
def tenthsStr (t : Nat) : String := toString (t / 10) ++ "." ++ toString (t % 10)

/-- Nearest integer to `num / den`, half to even (`0` when `den = 0`);
embeds the float that only ever feeds a `:.0f` format. -/
def unitsDiv (num den : Nat) : Nat :=
  if den = 0 then 0
  else
    let q := num / den
    let r := num % den
    if 2 * r > den then q + 1
    else if 2 * r < den then q
    else if q % 2 = 0 then q else q + 1

/-! ## String comparison (Python sorts strings by code point) -/

/-- Code-point lexicographic `≤` on character lists. -/
def lexLeB : List Char → List Char → Bool
  | [], _ => true
  | _ :: _, [] => false
  | a :: as, b :: bs =>
      if a.toNat < b.toNat then true
      else if b.toNat < a.toNat then false
      else lexLeB as bs

/-- Python's `≤` on strings (code-point lexicographic). -/
def nameLe (s t : String) : Prop := lexLeB s.toList t.toList = true

instance : DecidableRel nameLe := fun _ _ => instDecidableEqBool _ _

instance : IsTotal String nameLe := by
  refine ⟨fun s t => ?_⟩
  show lexLeB s.toList t.toList = true ∨ lexLeB t.toList s.toList = true
  generalize s.toList = a
  generalize t.toList = b
  induction a generalizing b with
  | nil => left; rfl
  | cons x as ih =>
      cases b with
      | nil => right; rfl
      | cons y bs =>
          by_cases h₁ : x.toNat < y.toNat
          · left; simp [lexLeB, h₁]
          · by_cases h₂ : y.toNat < x.toNat
            · right; simp [lexLeB, h₂]
            · have := ih bs
              simpa [lexLeB, h₁, h₂] using this

instance : IsTrans String nameLe := by
  have key : ∀ a b c : List Char,
      lexLeB a b = true → lexLeB b c = true → lexLeB a c = true := by
    intro a
    induction a with
    | nil => intro b c h₁ h₂; rfl
    | cons x as ih =>
      intro b c h₁ h₂
      cases b with
      | nil => simp [lexLeB] at h₁
      | cons y bs =>
          cases c with
          | nil => simp [lexLeB] at h₂
          | cons z cs =>
              simp only [lexLeB] at h₁ h₂ ⊢
              by_cases hxy : x.toNat < y.toNat
              · by_cases hyz : y.toNat < z.toNat
                · simp [show x.toNat < z.toNat by omega]
                · by_cases hzy : z.toNat < y.toNat
                  · simp [hyz, hzy] at h₂
                  · simp [show x.toNat < z.toNat by omega]
              · by_cases hyx : y.toNat < x.toNat
                · simp [hxy, hyx] at h₁
                · by_cases hyz : y.toNat < z.toNat
                  · simp [show x.toNat < z.toNat by omega]
                  · by_cases hzy : z.toNat < y.toNat
                    · simp [hyz, hzy] at h₂
                    · have hxz : ¬ x.toNat < z.toNat := by omega
                      have hzx : ¬ z.toNat < x.toNat := by omega
                      simp only [if_neg hxy, if_neg hyx] at h₁
                      simp only [if_neg hyz, if_neg hzy] at h₂
                      simp only [if_neg hxz, if_neg hzx]
                      exact ih bs cs h₁ h₂
  exact ⟨fun s t u h₁ h₂ => key s.toList t.toList u.toList h₁ h₂⟩

/-- Order of `'YYYY-MM'` month-key strings (zero-padded, so string order is
lexicographic on the `(year, month)` pair). -/
def monthKeyLe (a b : Nat × Nat) : Prop :=
  a.1 < b.1 ∨ (a.1 = b.1 ∧ a.2 ≤ b.2)

instance : DecidableRel monthKeyLe := fun a b => by
  unfold monthKeyLe; infer_instance

instance : IsTotal (Nat × Nat) monthKeyLe := ⟨fun a b => by unfold monthKeyLe; omega⟩

instance : IsTrans (Nat × Nat) monthKeyLe :=
  ⟨fun a b c h₁ h₂ => by unfold monthKeyLe at h₁ h₂ ⊢; omega⟩

/-! ## The fetched data model

API records are heterogeneous JSON objects; each field read through
`.get(key, default)` is an `Option` field. Dates arrive as `'%Y-%m-%d'`
strings and are embedded already parsed. -/

/-- One day's performance record for one campaign
(`/campaigns/analytics/daily` item). -/
structure DayRec where
  date : Option Date
  sent : Option Nat
  new_leads_contacted : Option Nat
  unique_replies : Option Nat
  opportunities : Option Nat
deriving DecidableEq, Repr

/-- The four counters of a record with the code's `.get(field, 0)` defaults. -/
def recAgg (r : DayRec) : Agg :=
  ⟨r.sent.getD 0, r.new_leads_contacted.getD 0,
   r.unique_replies.getD 0, r.opportunities.getD 0⟩

/-- A `/campaigns` item (only the fields the pipeline reads). -/
structure Campaign where
  id : Option String
  name : Option String
deriving DecidableEq, Repr

/-- An `/accounts` item (only the fields the pipeline reads). -/
structure Account where
  email : Option String
deriving DecidableEq, Repr

/-- An `/accounts/analytics/daily` item. -/
structure AccountDay where
  email_account : Option String
  sent : Option Nat
deriving DecidableEq, Repr

/-- The `data` dict assembled by `fetch_all_data`. `campaign_analytics` is
the per-campaign-id dict; `account_analytics = none` embeds a non-list
response (the code guards with `isinstance(..., list)`). -/
structure FetchData where
  campaigns : List Campaign
  campaign_analytics : List (Option String × List DayRec)
  accounts : List Account
  account_analytics : Option (List AccountDay)
deriving DecidableEq, Repr

/-- The daily records visited by the aggregation loops, in iteration order
(`for camp in data['campaigns']: for day in analytics.get(camp_id, [])`). -/
def allRecs (data : FetchData) : List DayRec :=
  data.campaigns.flatMap fun c => lookupD c.id data.campaign_analytics []

/-- The `(campaign_name, record)` pairs visited by `create_campaigns_tab`,
with the `camp.get('name', 'Unnamed')` default. -/
def namedRecs (data : FetchData) : List (String × DayRec) :=
  data.campaigns.flatMap fun c =>
    (lookupD c.id data.campaign_analytics []).map fun r => (c.name.getD "Unnamed", r)

/-! ## Master-dashboard aggregation (`create_master_dashboard`) -/

/-- Nested `defaultdict` accumulation `year_data[year][month_key] += stats`. -/
def bumpYM (y : Nat) (mk : Nat × Nat) (a : Agg) :
    List (Nat × List ((Nat × Nat) × Agg)) → List (Nat × List ((Nat × Nat) × Agg))
  | [] => [(y, bump mk a [])]
  | (y₂, inner) :: rest =>
      if y₂ = y then (y₂, bump mk a inner) :: rest
      else (y₂, inner) :: bumpYM y mk a rest

/-- One step of the master-dashboard loop for `year_data`
(`if not date_str: continue`, then the two nested `+=` groups). -/
def mstep (yd : List (Nat × List ((Nat × Nat) × Agg))) (r : DayRec) :
    List (Nat × List ((Nat × Nat) × Agg)) :=
  match r.date with
  | none => yd
  | some dt => bumpYM dt.y (dt.y, dt.m) (recAgg r) yd

/-- One step of the master-dashboard loop for `all_time_totals`. -/
def atstep (tot : Agg) (r : DayRec) : Agg :=
  match r.date with
  | none => tot
  | some _ => addAgg tot (recAgg r)

/-- The `year_data` nested mapping `year → month_key → Agg`; records with a
missing date are skipped. The month key `'YYYY-MM'` is embedded as the
pair `(year, month)`. -/
def year_data (data : FetchData) : List (Nat × List ((Nat × Nat) × Agg)) :=
  (allRecs data).foldl mstep []

/-- The `all_time_totals` accumulator of the same loop. -/
def all_time_totals (data : FetchData) : Agg :=
  (allRecs data).foldl atstep Agg.zero

/-! ## Weekly-by-campaign aggregation (`create_campaigns_tab`) -/

/-- `target_year = 2026` in `create_campaigns_tab`. -/
def targetYear : Nat := 2026

/-- One step of the `week_camp_data` loop keyed by `(week_num, week_label,
campaign_name)`; records with a missing date or a calendar year other than
the target year are skipped. -/
def wstep (wcd : List ((Nat × String × String) × Agg)) (nr : String × DayRec) :
    List ((Nat × String × String) × Agg) :=
  match nr.2.date with
  | none => wcd
  | some dt =>
      if dt.y ≠ targetYear then wcd
      else
        let wi := get_week_info dt
        bump (wi.week_num, wi.label, nr.1) (recAgg nr.2) wcd

/-- The accumulation loop of `week_camp_data`. -/
def week_camp_data (data : FetchData) : List ((Nat × String × String) × Agg) :=
  (namedRecs data).foldl wstep []

/-! ## Campaigns-tab report rows (`create_campaigns_tab`) -/

/-- A spreadsheet row: an ordered list of cell display strings. -/
abbrev Row := List String

/-- Insert one `week_camp_data` item into the `weeks` regrouping: create
`weeks[week_num] = {'label': lbl, 'campaigns': {}}` on first sight of the
week (keeping the first-seen label), then assign
`weeks[week_num]['campaigns'][name] = stats`. -/
def addWeekEntry (wn : Nat) (lbl cname : String) (stats : Agg) :
    List (Nat × (String × List (String × Agg))) →
    List (Nat × (String × List (String × Agg)))
  | [] => [(wn, (lbl, [(cname, stats)]))]
  | (wn₂, (lbl₂, camps)) :: rest =>
      if wn₂ = wn then (wn₂, (lbl₂, dinsert cname stats camps)) :: rest
      else (wn₂, (lbl₂, camps)) :: addWeekEntry wn lbl cname stats rest

/-- Regroup `week_camp_data` into `weeks = {week_num: {'label': …,
'campaigns': {name: stats}}}`. -/
def weeksOf (wcd : List ((Nat × String × String) × Agg)) :
    List (Nat × (String × List (String × Agg))) :=
  wcd.foldl (fun weeks kv => addWeekEntry kv.1.1 kv.1.2.1 kv.1.2.2 kv.2 weeks) []

/-- `reply_pct` of a bucket, in exact tenths of a percent
(`replies / sent * 100 if sent > 0 else 0`). -/
def reply_pct (stats : Agg) : Nat :=
  if stats.sent > 0 then tenthsDiv (stats.replies * 100) stats.sent else 0

/-- `opp_pct` of a bucket, in exact tenths of a percent. -/
def opp_pct (stats : Agg) : Nat :=
  if stats.sent > 0 then tenthsDiv (stats.opportunities * 100) stats.sent else 0

/-- `f"{pct:.1f}%"`. -/
def pctCell (t : Nat) : String := tenthsStr t ++ "%"

/-- One campaign data row of a week block. -/
def campaignRow (cname : String) (stats : Agg) : Row :=
  ["", cname, fmtComma stats.sent, fmtComma stats.new_leads,
   fmtComma stats.replies, fmtComma stats.opportunities,
   pctCell (reply_pct stats), pctCell (opp_pct stats)]

/-- The suppression test: `stats['sent'] == 0 and stats['replies'] == 0 and
stats['opportunities'] == 0`. -/
def suppressedB (stats : Agg) : Bool :=
  stats.sent == 0 && stats.replies == 0 && stats.opportunities == 0

/-- The inner loop of a week block: visit campaign names in sorted order,
skip suppressed buckets, emit one data row per surviving bucket, and
accumulate `week_totals` over the surviving buckets. -/
def week_body (camps : List (String × Agg)) : List String → List Row × Agg
  | [] => ([], Agg.zero)
  | n :: rest =>
      let stats := lookupD n camps Agg.zero
      let r := week_body camps rest
      if suppressedB stats then r
      else (campaignRow n stats :: r.1, addAgg stats r.2)

/-- The `WEEKLY TOTAL` row of a week block. -/
def weekly_total_row (tot : Agg) : Row :=
  ["WEEKLY TOTAL", "", fmtComma tot.sent, fmtComma tot.new_leads,
   fmtComma tot.replies, fmtComma tot.opportunities,
   pctCell (reply_pct tot), pctCell (opp_pct tot)]

/-- The `GRAND TOTAL (YTD)` row. -/
def grand_total_row (tot : Agg) : Row :=
  ["GRAND TOTAL (YTD)", "", fmtComma tot.sent, fmtComma tot.new_leads,
   fmtComma tot.replies, fmtComma tot.opportunities,
   pctCell (reply_pct tot), pctCell (opp_pct tot)]

/-- The per-week sections in ascending week order: a week-label row, the
data rows, the weekly-total row and a spacer; the second component is the
`grand_totals` accumulation over the weekly totals. -/
def campaign_sections (weeks : List (Nat × (String × List (String × Agg)))) :
    List Nat → List Row × Agg
  | [] => ([], Agg.zero)
  | wn :: rest =>
      let w := lookupD wn weeks ("", [])
      let names := List.insertionSort nameLe (w.2.map (·.1))
      let body := week_body w.2 names
      let tail := campaign_sections weeks rest
      ((w.1 :: ["", "", "", "", "", "", ""]) :: body.1 ++
        (weekly_total_row body.2 :: ["", "", "", "", "", "", "", ""] :: tail.1),
       addAgg body.2 tail.2)

/-- All rows of the `Campaigns 2026` tab. -/
def create_campaigns_tab_rows (data : FetchData) : List Row :=
  let weeks := weeksOf (week_camp_data data)
  let sortedWns := List.insertionSort (· ≤ ·) (weeks.map (·.1))
  let secs := campaign_sections weeks sortedWns
  ["Week", "Campaign Name", "Emails Sent", "New Leads", "Replies",
   "Opportunities", "Reply %", "Opp %"] :: secs.1 ++ [grand_total_row secs.2]

/-- The campaigns dict of one week block of the built report. -/
def week_camps (data : FetchData) (wn : Nat) : List (String × Agg) :=
  (lookupD wn (weeksOf (week_camp_data data)) ("", [])).2

/-- The data rows of one week block of the built report. -/
def weekDataRows (data : FetchData) (wn : Nat) : List Row :=
  (week_body (week_camps data wn)
    (List.insertionSort nameLe ((week_camps data wn).map (·.1)))).1

/-- The `week_totals` of one week block of the built report. -/
def weekTotals (data : FetchData) (wn : Nat) : Agg :=
  (week_body (week_camps data wn)
    (List.insertionSort nameLe ((week_camps data wn).map (·.1)))).2

/-- The `grand_totals` of the built report. -/
def grandTotals (data : FetchData) : Agg :=
  (campaign_sections (weeksOf (week_camp_data data))
    (List.insertionSort (· ≤ ·) ((weeksOf (week_camp_data data)).map (·.1)))).2

/-! ## Master-dashboard rows (`create_master_dashboard`) -/

/-- `emails_per_opp = sent / opportunities if opportunities > 0 else 0`,
in exact tenths. -/
def emails_per_opp (stats : Agg) : Nat :=
  if stats.opportunities > 0 then tenthsDiv stats.sent stats.opportunities else 0

/-- One month data row of a year section. -/
def month_row (mk : Nat × Nat) (stats : Agg) : Row :=
  [monthFull mk.2, fmtComma stats.sent, fmtComma stats.new_leads,
   fmtComma stats.replies, fmtComma stats.opportunities,
   tenthsStr (emails_per_opp stats)]

/-- `sorted(stats_for_year.keys())`: the `'YYYY-MM'` keys in string order. -/
def sortedMonthKeys (stats : List ((Nat × Nat) × Agg)) : List (Nat × Nat) :=
  List.insertionSort monthKeyLe (stats.map (·.1))

/-- A `PERFORMANCE BY MONTH <year>` section: title row, column-header row,
one row per month in sorted key order. -/
def month_section_rows (title : String) (stats : List ((Nat × Nat) × Agg)) :
    List Row :=
  [title, "", "", "", "", ""] ::
  ["Month", "Emails Sent", "New Leads", "Replies", "Opportunities", "Emails/Opp"] ::
  (sortedMonthKeys stats).map fun mk => month_row mk (lookupD mk stats Agg.zero)

/-- All rows of the `Master Dashboard` tab. -/
def create_master_dashboard_rows (data : FetchData) : List Row :=
  let att := all_time_totals data
  let stats26 := lookupD 2026 (year_data data) []
  let stats25 := lookupD 2025 (year_data data) []
  [["MASTER DASHBOARD", "", "", "", "", ""],
   ["ALL TIME PERFORMANCE", "", "", "", "", ""],
   ["Emails Sent", "New Leads", "Replies", "Opportunities", "", ""],
   [fmtComma att.sent, fmtComma att.new_leads, fmtComma att.replies,
    fmtComma att.opportunities, "", ""],
   ["", "", "", "", "", ""]] ++
  (if stats26.isEmpty then []
   else month_section_rows ("PERFORMANCE BY MONTH 2026") stats26 ++
        [["", "", "", "", "", ""]]) ++
  (if stats25.isEmpty then []
   else month_section_rows ("PERFORMANCE BY MONTH 2025") stats25)

/-! ## Agents tab (`create_agents_tab`) -/

/-- The per-agent accumulator `{'total_sent': …, 'active_days': …}`. -/
structure AgentStats where
  total_sent : Nat
  active_days : Nat
deriving DecidableEq, Repr

/-- One step of the `account_analytics` loop: skip a missing or empty
`email_account` (both falsy), add the day's `sent` (default 0), and count
an active day when `sent > 0`. -/
def agentStep (ad : List (String × AgentStats)) (day : AccountDay) :
    List (String × AgentStats) :=
  match day.email_account with
  | none => ad
  | some email =>
      if email = "" then ad
      else
        let sent := day.sent.getD 0
        let cur := lookupD email ad ⟨0, 0⟩
        dinsert email
          ⟨cur.total_sent + sent, cur.active_days + (if sent > 0 then 1 else 0)⟩ ad

/-- The `agent_data` dict: fold the analytics stream (when it is a list),
then add roster accounts that are absent from it with zero stats. -/
def agent_data (data : FetchData) : List (String × AgentStats) :=
  let base :=
    match data.account_analytics with
    | none => []
    | some days => days.foldl agentStep []
  data.accounts.foldl
    (fun ad acc =>
      match acc.email with
      | none => ad
      | some email =>
          if email = "" then ad
          else if dmem email ad then ad
          else dinsert email ⟨0, 0⟩ ad)
    base

/-- `sorted(..., key=total_sent, reverse=True)`: descending by `total_sent`,
stable (encounter order preserved among ties). -/
def agentGeRel (a b : String × AgentStats) : Prop :=
  b.2.total_sent ≤ a.2.total_sent

instance : DecidableRel agentGeRel := fun _ b => Nat.decLe b.2.total_sent _

instance : IsTotal (String × AgentStats) agentGeRel :=
  ⟨fun a b => by unfold agentGeRel; omega⟩

instance : IsTrans (String × AgentStats) agentGeRel :=
  ⟨fun a b c h₁ h₂ => by unfold agentGeRel at h₁ h₂ ⊢; omega⟩

/-- The `sorted_agents` list. -/
def sorted_agents (data : FetchData) : List (String × AgentStats) :=
  List.insertionSort agentGeRel (agent_data data)

/-- `avg_per_day = total_sent / active_days if active_days > 0 else 0`,
rounded the way `f"{x:.0f}"` renders it. -/
def avg_per_day (st : AgentStats) : Nat :=
  if st.active_days > 0 then unitsDiv st.total_sent st.active_days else 0

/-- One agent data row. -/
def agent_row (email : String) (st : AgentStats) : Row :=
  [email, fmtComma st.total_sent, toString st.active_days,
   toString (avg_per_day st), if st.total_sent > 0 then "Active" else "Inactive"]

/-- All rows of the `Agents` tab. -/
def create_agents_tab_rows (data : FetchData) : List Row :=
  let sa := sorted_agents data
  let total_sent := (sa.map (fun a => a.2.total_sent)).sum
  let active_count := sa.countP fun a => a.2.total_sent != 0
  (["Agent Email", "Total Emails Sent", "Active Days", "Avg/Day", "Status"] ::
    sa.map fun a => agent_row a.1 a.2) ++
  [["TOTAL (" ++ toString (agent_data data).length ++ " agents)",
    fmtComma total_sent, "-", "-", toString active_count ++ " Active"]]

/-! ## Email digest (`main`, the `--- Email Logic ---` block) -/

/-- The six digest counters. -/
structure DigestTotals where
  week_sent : Nat
  week_replies : Nat
  week_opps : Nat
  all_sent : Nat
  all_replies : Nat
  all_opps : Nat
deriving DecidableEq, Repr

/-- The digest accumulation over daily records. Unlike the tab builders the
digest reads `day['date']` with a bare subscript, so a record without a
date raises `KeyError`, embedded as `none`. `ws`/`we` are the day counts of
the Monday and Sunday of the current week. -/
def digestFold (ws we : Nat) : List DayRec → DigestTotals → Option DigestTotals
  | [], acc => some acc
  | r :: rest, acc =>
      match r.date with
      | none => none
      | some d =>
          let rd := rataDie d
          let s := r.sent.getD 0
          let rp := r.unique_replies.getD 0
          let op := r.opportunities.getD 0
          let inWeek := ws ≤ rd && rd ≤ we
          digestFold ws we rest
            ⟨acc.week_sent + (if inWeek then s else 0),
             acc.week_replies + (if inWeek then rp else 0),
             acc.week_opps + (if inWeek then op else 0),
             acc.all_sent + s, acc.all_replies + rp, acc.all_opps + op⟩

/-- The digest metric computation of `main`: current-week (Monday–Sunday
span containing `today`) and all-time totals over every fetched record. -/
def digest_totals (today : Date) (analytics : List (Option String × List DayRec)) :
    Option DigestTotals :=
  let ws := rataDie today - pyWeekday today
  digestFold ws (ws + 6) (analytics.flatMap (·.2)) ⟨0, 0, 0, 0, 0, 0⟩

/-- A digest rate string:
`f"{(num / den * 100):.1f}%" if den > 0 else "0.0%"`. -/
def digest_rate (num den : Nat) : String :=
  if den > 0 then pctCell (tenthsDiv (num * 100) den) else "0.0%"

/-- The four rate strings of the digest
(weekly reply/opp, all-time reply/opp). -/
def digest_rates (t : DigestTotals) : List String :=
  [digest_rate t.week_replies t.week_sent,
   digest_rate t.week_opps t.week_sent,
   digest_rate t.all_replies t.all_sent,
   digest_rate t.all_opps t.all_sent]

/-! ## Paginated fetcher (`app/pagination_helper.py`) -/

/-- One page response: `{'items': […], 'next_starting_after': …}`; a missing
cursor key is `none`. -/
structure PageResponse (α : Type) where
  items : List α
  next_starting_after : Option String
deriving DecidableEq, Repr

/-- Python truthiness of the cursor (`None` and `''` are falsy). -/
def truthyCursor : Option String → Bool
  | none => false
  | some s => !(s == "")

/-- `dict.copy()`: the loop writes the cursor only into this fresh dict,
never into the caller's dict. -/
def dictCopy (d : List (String × String)) : List (String × String) := d

/-- The params built per iteration:
`params = initial_params.copy() if initial_params else {}` followed by
`params['starting_after'] = cursor` when a cursor is held. -/
def buildParams (ip : List (String × String)) (cursor : Option String) :
    List (String × String) :=
  let params := dictCopy (if ip.isEmpty then [] else ip)
  if truthyCursor cursor then dinsert ("starting_after") (cursor.getD "") params
  else params

/-- The `while page <= max_pages` loop of `fetch_all_paginated`, with the
remaining page budget as fuel. Returns the accumulated items and the
number of requests performed. -/
def fetchGo (client : List (String × String) → PageResponse α)
    (ip : List (String × String)) : Nat → Option String → List α → List α × Nat
  | 0, _, acc => (acc, 0)
  | fuel + 1, cursor, acc =>
      let resp := client (buildParams ip cursor)
      if resp.items.isEmpty then (acc, 1)
      else if truthyCursor resp.next_starting_after = false then
        (acc ++ resp.items, 1)
      else
        let r := fetchGo client ip fuel resp.next_starting_after (acc ++ resp.items)
        (r.1, r.2 + 1)

/-- `fetch_all_paginated(client, endpoint, initial_params, max_pages)`. -/
def fetch_all_paginated (client : String → List (String × String) → PageResponse α)
    (endpoint : String) (ip : List (String × String)) (maxPages : Nat := 20) :
    List α :=
  (fetchGo (client endpoint) ip maxPages none []).1

/-- Number of requests `fetch_all_paginated` performs. -/
def fetchRequestCount (client : String → List (String × String) → PageResponse α)
    (endpoint : String) (ip : List (String × String)) (maxPages : Nat := 20) :
    Nat :=
  (fetchGo (client endpoint) ip maxPages none []).2

/-- The page-emission sequence stated by the spec: keep requesting while
pages are non-empty and carry a continuation cursor, up to the page budget. -/
def pagesSpec (req : List (String × String) → PageResponse α)
    (ip : List (String × String)) : Nat → Option String → List (List α)
  | 0, _ => []
  | fuel + 1, cursor =>
      let resp := req (buildParams ip cursor)
      if resp.items.isEmpty then []
      else if truthyCursor resp.next_starting_after = false then [resp.items]
      else resp.items :: pagesSpec req ip fuel resp.next_starting_after

/-- The loop with the caller's `initial_params` dict threaded as explicit
state: each iteration writes the cursor only into the `dictCopy` taken
inside `buildParams` and hands the caller's dict on unchanged. -/
def fetchGoSt (client : List (String × String) → PageResponse α) :
    Nat → Option String → List α → List (String × String) →
    List α × List (String × String)
  | 0, _, acc, ip => (acc, ip)
  | fuel + 1, cursor, acc, ip =>
      let resp := client (buildParams ip cursor)
      if resp.items.isEmpty then (acc, ip)
      else if truthyCursor resp.next_starting_after = false then
        (acc ++ resp.items, ip)
      else fetchGoSt client fuel resp.next_starting_after (acc ++ resp.items) ip

/-! ## Provider categorizer and placement aggregator
(`app/provider_analyzer.py`) -/

/-- Substring containment (`needle in hay` on Python strings). -/
def strContainsB (needle : List Char) : List Char → Bool
  | [] => needle.isEmpty
  | c :: rest => List.isPrefixOf needle (c :: rest) || strContainsB needle rest

/-- `str.lower()`. -/
def lowerChars (l : List Char) : List Char := l.map Char.toLower

/-- `email.split('@')[-1]`: the part after the last `'@'`, or the whole
string when it has none. -/
def afterLastAt (l : List Char) : List Char :=
  (l.reverse.takeWhile (fun c => c != '@')).reverse

/-- `categorize_email_provider` of `app/provider_analyzer.py`. -/
def categorize_email_provider (email : String) : String :=
  let domain := lowerChars (afterLastAt email.toList)
  if strContainsB ("gmail.com".toList) domain ||
     strContainsB ("googlemail.com".toList) domain then "Google"
  else if ["outlook.", "hotmail.", "live.", "msn.", "office365."].any
      (fun x => strContainsB x.toList domain) then "Microsoft"
  else if strContainsB ("yahoo.".toList) domain ||
     strContainsB ("ymail.".toList) domain then "Yahoo"
  else "Others"

/-- A recipient entry: either a bare address string (test in progress) or a
dict carrying `email` and `placement`. -/
inductive Recipient where
  | str (address : String)
  | dict (email : Option String) (placement : Option String)
deriving DecidableEq, Repr

/-- One provider's counter dict `{'total', 'inbox', 'spam', 'other'}`. -/
structure PStats where
  total : Nat
  inbox : Nat
  spam : Nat
  other : Nat
deriving DecidableEq, Repr

def PStats.zero : PStats := ⟨0, 0, 0, 0⟩

/-- The `provider_stats` dict with its four fixed keys. -/
structure AllPStats where
  google : PStats
  microsoft : PStats
  yahoo : PStats
  others : PStats
deriving DecidableEq, Repr

def AllPStats.zero : AllPStats := ⟨PStats.zero, PStats.zero, PStats.zero, PStats.zero⟩

/-- `provider_stats[provider]` update (`provider` is always one of the four
keys `categorize_email_provider` can return). -/
def bumpP (provider : String) (f : PStats → PStats) (s : AllPStats) : AllPStats :=
  if provider = "Google" then { s with google := f s.google }
  else if provider = "Microsoft" then { s with microsoft := f s.microsoft }
  else if provider = "Yahoo" then { s with yahoo := f s.yahoo }
  else { s with others := f s.others }

/-- Read a provider's counters back out of `provider_stats`. -/
def getP (provider : String) (s : AllPStats) : PStats :=
  if provider = "Google" then s.google
  else if provider = "Microsoft" then s.microsoft
  else if provider = "Yahoo" then s.yahoo
  else s.others

/-- One step of the recipients loop: a bare string bumps only `total`; a
dict recipient is categorized by its `email` (default `''`) and scored by
its lower-cased `placement` (default `'other'`): substring `'inbox'` →
inbox, else `'spam'` → spam, else other. -/
def recipStep (s : AllPStats) (r : Recipient) : AllPStats :=
  match r with
  | .str address =>
      bumpP (categorize_email_provider address)
        (fun p => { p with total := p.total + 1 }) s
  | .dict email placement =>
      let provider := categorize_email_provider (email.getD "")
      let plc := lowerChars (placement.getD "other").toList
      bumpP provider
        (fun p =>
          let p := { p with total := p.total + 1 }
          if strContainsB ("inbox".toList) plc then { p with inbox := p.inbox + 1 }
          else if strContainsB ("spam".toList) plc then { p with spam := p.spam + 1 }
          else { p with other := p.other + 1 })
        s

/-- One `breakdown[provider]` entry; the three rates are
`round(count / total * 100, 1)` in exact tenths. -/
structure BreakdownEntry where
  total : Nat
  inbox_rate : Nat
  spam_rate : Nat
  other_rate : Nat
  inbox_count : Nat
  spam_count : Nat
  other_count : Nat
deriving DecidableEq, Repr

def entryOf (st : PStats) : BreakdownEntry :=
  ⟨st.total, tenthsDiv (st.inbox * 100) st.total, tenthsDiv (st.spam * 100) st.total,
   tenthsDiv (st.other * 100) st.total, st.inbox, st.spam, st.other⟩

/-- `analyze_provider_breakdown`: `none` when the input has no
`recipients` key at all; otherwise fold the recipients into
`provider_stats` and keep, in fixed key order, the buckets with
`total > 0`. -/
def analyze_provider_breakdown (recipients : Option (List Recipient)) :
    Option (List (String × BreakdownEntry)) :=
  match recipients with
  | none => none
  | some recips =>
      let s := recips.foldl recipStep AllPStats.zero
      some ((([("Google", s.google), ("Microsoft", s.microsoft),
               ("Yahoo", s.yahoo), ("Others", s.others)].filter
                 (fun kv => kv.2.total != 0)).map
                   (fun kv => (kv.1, entryOf kv.2))))

/-- The provider a recipient is categorized under. -/
def providerOf : Recipient → String
  | .str address => categorize_email_provider address
  | .dict email _ => categorize_email_provider (email.getD "")

/-- Number of recipients categorized under provider `p`. -/
def cTotal (p : String) (rs : List Recipient) : Nat :=
  rs.countP fun r => providerOf r == p

/-- Number of dict recipients of provider `p` whose placement contains
`'inbox'`. -/
def cInbox (p : String) (rs : List Recipient) : Nat :=
  rs.countP fun r =>
    match r with
    | .str _ => false
    | .dict _ placement =>
        providerOf r == p &&
        strContainsB ("inbox".toList) (lowerChars (placement.getD "other").toList)

/-- Number of dict recipients of provider `p` scored as spam. -/
def cSpam (p : String) (rs : List Recipient) : Nat :=
  rs.countP fun r =>
    match r with
    | .str _ => false
    | .dict _ placement =>
        let plc := lowerChars (placement.getD "other").toList
        providerOf r == p && !strContainsB ("inbox".toList) plc &&
        strContainsB ("spam".toList) plc

/-- Number of dict recipients of provider `p` scored as other. -/
def cOther (p : String) (rs : List Recipient) : Nat :=
  rs.countP fun r =>
    match r with
    | .str _ => false
    | .dict _ placement =>
        let plc := lowerChars (placement.getD "other").toList
        providerOf r == p && !strContainsB ("inbox".toList) plc &&
        !strContainsB ("spam".toList) plc

/-! ## Auxiliary predicates, transforms and concrete scenario data -/

/-- A record carries a date. -/
def hasDate (r : DayRec) : Bool := r.date.isSome

/-- A record carries a date of calendar year `y`. -/
def dateYearIs (y : Nat) (r : DayRec) : Bool :=
  match r.date with
  | some d => d.y == y
  | none => false

/-- Direct component-wise sum of a record stream. -/
def recSum : List DayRec → Agg
  | [] => Agg.zero
  | r :: rest => addAgg (recAgg r) (recSum rest)

/-- Drop records without a date from every campaign's analytics. -/
def filterDated (data : FetchData) : FetchData :=
  { data with campaign_analytics :=
      data.campaign_analytics.map fun kv => (kv.1, kv.2.filter hasDate) }

/-- Replace every absent counter field by an explicit zero. -/
def fillCounters (r : DayRec) : DayRec :=
  ⟨r.date, some (r.sent.getD 0), some (r.new_leads_contacted.getD 0),
   some (r.unique_replies.getD 0), some (r.opportunities.getD 0)⟩

/-- `fillCounters` over every campaign analytics record, and an explicit
zero for every absent account-day `sent`. -/
def fillData (data : FetchData) : FetchData :=
  { data with
    campaign_analytics :=
      data.campaign_analytics.map fun kv => (kv.1, kv.2.map fillCounters),
    account_analytics :=
      data.account_analytics.map fun days =>
        days.map fun d => ⟨d.email_account, some (d.sent.getD 0)⟩ }

/-- An account-day record with a truthy `email_account`. -/
def truthyEmail (d : AccountDay) : Bool :=
  match d.email_account with
  | none => false
  | some e => e != ""

/-- Drop account-day records whose `email_account` is absent or empty. -/
def filterAgentDays (data : FetchData) : FetchData :=
  { data with account_analytics := data.account_analytics.map (·.filter truthyEmail) }

/-- The single-recipient counters of a provider bucket. -/
def countsFor (p : String) (rs : List Recipient) : PStats :=
  ⟨cTotal p rs, cInbox p rs, cSpam p rs, cOther p rs⟩

/-- The counters contributed by a single recipient. -/
def countsFor1 (p : String) (r : Recipient) : PStats := countsFor p [r]

/-- Component-wise sum of two provider counter dicts. -/
def addPS (a b : PStats) : PStats :=
  ⟨a.total + b.total, a.inbox + b.inbox, a.spam + b.spam, a.other + b.other⟩

/-- None of the nine provider patterns occurs in the (lower-cased) domain. -/
def matchesNoProvider (domain : List Char) : Bool :=
  !(strContainsB ("gmail.com".toList) domain ||
    strContainsB ("googlemail.com".toList) domain ||
    ["outlook.", "hotmail.", "live.", "msn.", "office365."].any
      (fun x => strContainsB x.toList domain) ||
    strContainsB ("yahoo.".toList) domain ||
    strContainsB ("ymail.".toList) domain)

/-- The spec's end-to-end scenario: campaign "Acme" with records
`{date: 2026-01-05, sent: 100, replies: 5, opportunities: 1}` and
`{date: 2026-01-12, sent: 50, replies: 0, opportunities: 0}`. -/
def acmeData : FetchData :=
  { campaigns := [⟨some ("c1"), some ("Acme")⟩],
    campaign_analytics := [(some ("c1"),
      [⟨some ⟨2026, 1, 5⟩, some 100, none, some 5, some 1⟩,
       ⟨some ⟨2026, 1, 12⟩, some 50, none, some 0, some 0⟩])],
    accounts := [], account_analytics := none }

/-- A campaign-week bucket with `sent = replies = opportunities = 0` but a
non-zero `new_leads_contacted` (date 2026-01-05, ISO week 2). -/
def nlData : FetchData :=
  { campaigns := [⟨some ("c1"), some ("A")⟩],
    campaign_analytics := [(some ("c1"),
      [⟨some ⟨2026, 1, 5⟩, some 0, some 5, some 0, some 0⟩])],
    accounts := [], account_analytics := none }

/-- A client whose every page is empty (pagination witness). -/
def constClient : String → List (String × String) → PageResponse Nat :=
  fun _ _ => ⟨[], none⟩

end ConnectResources

namespace ConnectResources

/-! # Theorems

Helper lemmas first, then one theorem per verified claim. -/

theorem addAgg_left_comm (a b c : Agg) :
    addAgg a (addAgg b c) = addAgg b (addAgg a c) := by
  simp only [addAgg, Agg.mk.injEq]
  omega

theorem addAgg_assoc (a b c : Agg) :
    addAgg (addAgg a b) c = addAgg a (addAgg b c) := by
  simp only [addAgg, Agg.mk.injEq]
  omega

theorem addAgg_zero_left (a : Agg) : addAgg Agg.zero a = a := by
  cases a; simp [addAgg, Agg.zero]

theorem addAgg_zero_right (a : Agg) : addAgg a Agg.zero = a := by
  cases a; simp [addAgg, Agg.zero]

theorem sumAgg_bump {κ : Type} [DecidableEq κ] (k : κ) (a : Agg)
    (m : List (κ × Agg)) : sumAgg (bump k a m) = addAgg a (sumAgg m) := by
  induction m with
  | nil =>
      simp only [bump, sumAgg, addAgg, Agg.mk.injEq, Agg.zero]
      omega
  | cons kv rest ih =>
      obtain ⟨k₂, v⟩ := kv
      by_cases h : k₂ = k
      · simp only [bump, h, if_pos rfl, sumAgg, addAgg, Agg.mk.injEq]
        omega
      · simp only [bump, if_neg h, sumAgg, ih, addAgg_left_comm]

/-! ## C5 — pagination loop -/

theorem fetchGo_items (α : Type) (client : List (String × String) → PageResponse α)
    (ip : List (String × String)) :
    ∀ (fuel : Nat) (cursor : Option String) (acc : List α),
      (fetchGo client ip fuel cursor acc).1 =
        acc ++ (pagesSpec client ip fuel cursor).flatten := by
  intro fuel
  induction fuel with
  | zero => intro cursor acc; simp [fetchGo, pagesSpec]
  | succ n ih =>
      intro cursor acc
      simp only [fetchGo, pagesSpec]
      by_cases h₁ : (client (buildParams ip cursor)).items.isEmpty
      · simp [h₁]
      · by_cases h₂ : truthyCursor (client (buildParams ip cursor)).next_starting_after
        · simp [h₁, h₂, ih, List.append_assoc]
        · simp [h₁, h₂]

theorem fetchGo_count (α : Type) (client : List (String × String) → PageResponse α)
    (ip : List (String × String)) :
    ∀ (fuel : Nat) (cursor : Option String) (acc : List α),
      (fetchGo client ip fuel cursor acc).2 ≤ fuel := by
  intro fuel
  induction fuel with
  | zero => intro cursor acc; simp [fetchGo]
  | succ n ih =>
      intro cursor acc
      simp only [fetchGo]
      by_cases h₁ : (client (buildParams ip cursor)).items.isEmpty
      · simp [h₁]
      · by_cases h₂ : truthyCursor (client (buildParams ip cursor)).next_starting_after
        · have := ih (client (buildParams ip cursor)).next_starting_after
            (acc ++ (client (buildParams ip cursor)).items)
          simp only [h₁, h₂, Bool.not_eq_true, if_neg, if_false]
          simp only [Bool.not_eq_false] at h₁
          simp [h₁, h₂]
          omega
        · simp only [Bool.not_eq_true] at h₂
          simp [h₁, h₂]

/-- C5: `fetch_all_paginated` performs at most `max_pages` requests; it
returns exactly the concatenation, in page-emission order and with no
de-duplication or re-sorting, of the pages visited under the spec's
stopping rules (stop at the first page with zero items or without a truthy
continuation cursor, or when the page budget is exhausted); and whenever a
page comes back with zero items the loop returns all previously
accumulated items and performs no further request. -/
theorem fetch_all_paginated_spec (α : Type)
    (client : String → List (String × String) → PageResponse α)
    (endpoint : String) (ip : List (String × String)) (maxPages : Nat) :
    fetchRequestCount client endpoint ip maxPages ≤ maxPages
  ∧ fetch_all_paginated client endpoint ip maxPages =
      (pagesSpec (client endpoint) ip maxPages none).flatten
  ∧ ∀ (fuel : Nat) (cursor : Option String) (acc : List α),
      (client endpoint (buildParams ip cursor)).items = [] →
      fetchGo (client endpoint) ip (fuel + 1) cursor acc = (acc, 1) := by
  refine ⟨fetchGo_count α (client endpoint) ip maxPages none [], ?_, ?_⟩
  · have := fetchGo_items α (client endpoint) ip maxPages none []
    simpa [fetch_all_paginated] using this
  · intro fuel cursor acc h
    simp [fetchGo, h]

/-- Witness for C5 at a concrete client whose first page is empty. -/
theorem fetch_all_paginated_spec_witness :
    fetchGo (constClient "/campaigns") [] 1 none ([] : List Nat) = ([], 1) :=
  (fetch_all_paginated_spec Nat constClient ("/campaigns") [] 1).2.2 0 none []
    (by decide)

/-! ## C10 — the caller's `initial_params` dict is never mutated -/

theorem lookupD_dinsert_ne {κ : Type} [DecidableEq κ] {β : Type}
    (k k₂ : κ) (v : β) (l : List (κ × β)) (dflt : β) (h : k₂ ≠ k) :
    lookupD k₂ (dinsert k v l) dflt = lookupD k₂ l dflt := by
  induction l with
  | nil =>
      simp only [dinsert, lookupD]
      rw [if_neg (fun h₂ => h h₂.symm)]
  | cons kv rest ih =>
      obtain ⟨k₃, v₃⟩ := kv
      simp only [dinsert]
      by_cases h₃ : k₃ = k
      · subst h₃
        simp only [if_pos rfl, lookupD]
        rw [if_neg (fun h₂ => h h₂.symm), if_neg (fun h₂ => h h₂.symm)]
      · simp only [if_neg h₃, lookupD]
        by_cases h₄ : k₃ = k₂ <;> simp [h₄, ih]

/-- C10: the per-page `starting_after` cursor is written only into a fresh
copy of `initial_params`: the loop hands the caller's dict back unchanged
(whatever the page responses), the items computed agree with
`fetch_all_paginated`, and the params sent on each request agree with the
caller's dict on every key other than `starting_after`. -/
theorem initial_params_unchanged (α : Type)
    (client : List (String × String) → PageResponse α)
    (maxPages : Nat) (cursor : Option String) (acc : List α)
    (ip : List (String × String)) :
    (fetchGoSt client maxPages cursor acc ip).2 = ip
  ∧ (fetchGoSt client maxPages cursor acc ip).1 =
      (fetchGo client ip maxPages cursor acc).1
  ∧ ∀ (c : Option String) (k : String) (dflt : String), k ≠ "starting_after" →
      lookupD k (buildParams ip c) dflt = lookupD k ip dflt := by
  refine ⟨?_, ?_, ?_⟩
  · induction maxPages generalizing cursor acc with
    | zero => rfl
    | succ n ih =>
        simp only [fetchGoSt]
        by_cases h₁ : (client (buildParams ip cursor)).items.isEmpty
        · simp [h₁]
        · by_cases h₂ : truthyCursor (client (buildParams ip cursor)).next_starting_after
          · simp [h₁, h₂, ih]
          · simp [h₁, h₂]
  · induction maxPages generalizing cursor acc with
    | zero => rfl
    | succ n ih =>
        simp only [fetchGoSt, fetchGo]
        by_cases h₁ : (client (buildParams ip cursor)).items.isEmpty
        · simp [h₁]
        · by_cases h₂ : truthyCursor (client (buildParams ip cursor)).next_starting_after
          · simp [h₁, h₂, ih]
          · simp [h₁, h₂]
  · intro c k dflt hk
    unfold buildParams dictCopy
    by_cases hc : truthyCursor c
    · simp only [hc, if_pos]
      rw [lookupD_dinsert_ne _ _ _ _ _ hk]
      by_cases hip : ip.isEmpty
      · simp [hip, List.isEmpty_iff.mp hip, lookupD]
      · simp [hip]
    · by_cases hip : ip.isEmpty
      · simp [hc, hip, List.isEmpty_iff.mp hip, lookupD]
      · simp [hc, hip]

/-- Witness for C10 at a concrete client, params dict and key. -/
theorem initial_params_unchanged_witness :
    (fetchGoSt (constClient "/c") 2 none [] [("limit", "100")]).2 =
      [("limit", "100")]
  ∧ lookupD ("limit") (buildParams [("limit", "100")] (some ("abc"))) "" =
      lookupD ("limit") [("limit", "100")] "" := by
  have h := initial_params_unchanged Nat (constClient "/c") 2 none []
    [("limit", "100")]
  exact ⟨h.1, h.2.2 (some ("abc")) ("limit") "" (by decide)⟩

end ConnectResources

namespace ConnectResources

/-! ## C8 — categorizer on strings without `'@'` -/

theorem afterLastAt_of_no_at (l : List Char) (h : l.contains '@' = false) :
    afterLastAt l = l := by
  have h₂ : '@' ∉ l := by simpa using h
  have hall : ∀ c ∈ l.reverse, (c != '@') = true := by
    intro c hc
    rcases eq_or_ne c '@' with rfl | hne
    · exact absurd (List.mem_reverse.mp hc) h₂
    · simpa using hne
  unfold afterLastAt
  rw [List.takeWhile_eq_self_iff.mpr hall, List.reverse_reverse]

/-- C8 (amended): on an input without `'@'`, `split('@')[-1]` is the whole
string, so the whole lower-cased input is matched as the domain:
`categorize_email_provider` returns `'Others'` exactly when none of the
nine provider patterns occurs in it (not unconditionally). -/
theorem categorize_no_at (email : String)
    (h : email.toList.contains '@' = false) :
    categorize_email_provider email = "Others" ↔
      matchesNoProvider (lowerChars email.toList) = true := by
  simp only [categorize_email_provider, matchesNoProvider]
  rw [afterLastAt_of_no_at _ h]
  simp only [List.any_cons, List.any_nil, Bool.or_false]
  generalize strContainsB ("gmail.com".toList) (lowerChars email.toList) = g1
  generalize strContainsB ("googlemail.com".toList) (lowerChars email.toList) = g2
  generalize strContainsB ("outlook.".toList) (lowerChars email.toList) = m1
  generalize strContainsB ("hotmail.".toList) (lowerChars email.toList) = m2
  generalize strContainsB ("live.".toList) (lowerChars email.toList) = m3
  generalize strContainsB ("msn.".toList) (lowerChars email.toList) = m4
  generalize strContainsB ("office365.".toList) (lowerChars email.toList) = m5
  generalize strContainsB ("yahoo.".toList) (lowerChars email.toList) = y1
  generalize strContainsB ("ymail.".toList) (lowerChars email.toList) = y2
  revert g1 g2 m1 m2 m3 m4 m5 y1 y2
  decide

/-- C8 counterexample: `"gmail.com"` contains no `'@'`, yet the categorizer
returns `'Google'`, not `'Others'` — the claim as stated is false. -/
theorem categorize_no_at_counterexample :
    ("gmail.com".toList.contains '@' = false) ∧
    categorize_email_provider ("gmail.com") ≠ "Others" := by decide

/-- Witness for C8 (amended) at a concrete pattern-free input. -/
theorem categorize_no_at_witness :
    categorize_email_provider ("abc.example") = "Others" :=
  (categorize_no_at ("abc.example") (by decide)).mpr (by decide)

end ConnectResources

namespace ConnectResources

/-! ## C4 — zero denominators yield 0 / `"0.0%"`, never an exception

Every embedded rate is a total function: the zero-denominator branches are
explicit, so no division error can occur anywhere in the pipeline. -/

/-- C4: in every bucket, `reply_pct`/`opp_pct` are 0 (rendered `"0.0%"`)
when `sent = 0`; `emails_per_opp` is 0 (rendered `"0.0"`) when
`opportunities = 0`; `avg_per_day` is 0 (rendered `"0"`) when
`active_days = 0`; and the weekly and all-time digest rates render
`"0.0%"` when the corresponding sent total is 0. -/
theorem zero_denominator_rates :
    (∀ stats : Agg, stats.sent = 0 →
        reply_pct stats = 0 ∧ pctCell (reply_pct stats) = "0.0%" ∧
        opp_pct stats = 0 ∧ pctCell (opp_pct stats) = "0.0%")
  ∧ (∀ stats : Agg, stats.opportunities = 0 →
        emails_per_opp stats = 0 ∧ tenthsStr (emails_per_opp stats) = "0.0")
  ∧ (∀ st : AgentStats, st.active_days = 0 →
        avg_per_day st = 0 ∧ toString (avg_per_day st) = "0")
  ∧ (∀ t : DigestTotals, t.week_sent = 0 →
        digest_rate t.week_replies t.week_sent = "0.0%" ∧
        digest_rate t.week_opps t.week_sent = "0.0%")
  ∧ (∀ t : DigestTotals, t.all_sent = 0 →
        digest_rate t.all_replies t.all_sent = "0.0%" ∧
        digest_rate t.all_opps t.all_sent = "0.0%") := by
  refine ⟨?_, ?_, ?_, ?_, ?_⟩
  · intro stats hs
    have h0 : reply_pct stats = 0 := by simp [reply_pct, hs]
    have h1 : opp_pct stats = 0 := by simp [opp_pct, hs]
    refine ⟨h0, ?_, h1, ?_⟩
    · rw [h0]; rfl
    · rw [h1]; rfl
  · intro stats ho
    have h0 : emails_per_opp stats = 0 := by simp [emails_per_opp, ho]
    exact ⟨h0, by rw [h0]; rfl⟩
  · intro st ha
    have h0 : avg_per_day st = 0 := by simp [avg_per_day, ha]
    exact ⟨h0, by rw [h0]; rfl⟩
  · intro t hw
    simp [digest_rate, hw]
  · intro t ha
    simp [digest_rate, ha]

/-- Witness for C4 at concrete zero-denominator buckets. -/
theorem zero_denominator_rates_witness :
    pctCell (reply_pct ⟨0, 7, 3, 2⟩) = "0.0%" ∧
    tenthsStr (emails_per_opp ⟨9, 1, 2, 0⟩) = "0.0" ∧
    toString (avg_per_day ⟨5, 0⟩) = "0" ∧
    digest_rate (DigestTotals.week_replies ⟨0, 3, 1, 0, 2, 1⟩)
      (DigestTotals.week_sent ⟨0, 3, 1, 0, 2, 1⟩) = "0.0%" :=
  ⟨(zero_denominator_rates.1 ⟨0, 7, 3, 2⟩ rfl).2.1,
   (zero_denominator_rates.2.1 ⟨9, 1, 2, 0⟩ rfl).2,
   (zero_denominator_rates.2.2.1 ⟨5, 0⟩ rfl).2,
   ((zero_denominator_rates.2.2.2.1 ⟨0, 3, 1, 0, 2, 1⟩ rfl).1)⟩

end ConnectResources

namespace ConnectResources

/-! ## C9 — placement-breakdown shape -/

theorem categorize_mem_four (email : String) :
    categorize_email_provider email = "Google" ∨
    categorize_email_provider email = "Microsoft" ∨
    categorize_email_provider email = "Yahoo" ∨
    categorize_email_provider email = "Others" := by
  simp only [categorize_email_provider]
  split_ifs <;> simp

theorem addPS_zero_right (a : PStats) : addPS a PStats.zero = a := by
  cases a; simp [addPS, PStats.zero]

theorem addPS_assoc (a b c : PStats) :
    addPS (addPS a b) c = addPS a (addPS b c) := by
  simp only [addPS, PStats.mk.injEq]
  omega

theorem countsFor_nil (p : String) : countsFor p [] = PStats.zero := by
  simp [countsFor, cTotal, cInbox, cSpam, cOther, PStats.zero]

theorem countsFor_cons (p : String) (r : Recipient) (rest : List Recipient) :
    countsFor p (r :: rest) = addPS (countsFor1 p r) (countsFor p rest) := by
  simp only [countsFor1, countsFor, cTotal, cInbox, cSpam, cOther, addPS,
    List.countP_cons, List.countP_nil, PStats.mk.injEq]
  omega

set_option maxRecDepth 4000 in
theorem recipStep_single (s : AllPStats) (r : Recipient) :
    recipStep s r =
      ⟨addPS s.google (countsFor1 ("Google") r),
       addPS s.microsoft (countsFor1 ("Microsoft") r),
       addPS s.yahoo (countsFor1 ("Yahoo") r),
       addPS s.others (countsFor1 ("Others") r)⟩ := by
  cases r with
  | str a =>
      rcases categorize_mem_four a with hp | hp | hp | hp <;>
        · simp only [recipStep, countsFor1, countsFor, cTotal, cInbox, cSpam,
            cOther, providerOf, hp, List.countP_cons, List.countP_nil]
          simp [bumpP, addPS]
  | dict em pl =>
      rcases categorize_mem_four (em.getD "") with hp | hp | hp | hp <;>
        · simp only [recipStep, countsFor1, countsFor, cTotal, cInbox, cSpam,
            cOther, providerOf, hp, List.countP_cons, List.countP_nil]
          simp only [bumpP, addPS]
          simp
          split_ifs <;> simp_all

theorem foldl_recipStep (rs : List Recipient) : ∀ s : AllPStats,
    rs.foldl recipStep s =
      ⟨addPS s.google (countsFor ("Google") rs),
       addPS s.microsoft (countsFor ("Microsoft") rs),
       addPS s.yahoo (countsFor ("Yahoo") rs),
       addPS s.others (countsFor ("Others") rs)⟩ := by
  induction rs with
  | nil =>
      intro s
      cases s
      simp [countsFor_nil, addPS_zero_right]
  | cons r rest ih =>
      intro s
      rw [List.foldl_cons, ih (recipStep s r), recipStep_single]
      simp only [countsFor_cons, addPS_assoc]

end ConnectResources

namespace ConnectResources

theorem addPS_zero_left (a : PStats) : addPS PStats.zero a = a := by
  cases a; simp [addPS, PStats.zero]

/-- C9: `analyze_provider_breakdown` is `null` exactly when the input has
no recipients collection; an empty-but-present collection yields the
non-null all-zero breakdown (the empty mapping, every bucket omitted); and
for each provider bucket `p`, the result maps `p` to its entry with
`total` the number of recipients categorized under `p` and rates
`round(count / total * 100, 1)` exactly when that bucket has at least one
recipient, and omits `p` entirely when it has none. -/
theorem analyze_provider_breakdown_spec (recipients : Option (List Recipient)) :
    (analyze_provider_breakdown recipients = none ↔ recipients = none)
  ∧ (recipients = some [] → analyze_provider_breakdown recipients = some [])
  ∧ (∀ rs, recipients = some rs →
      ∀ p, p ∈ (["Google", "Microsoft", "Yahoo", "Others"] : List String) →
        (0 < cTotal p rs →
          ((analyze_provider_breakdown recipients).getD []).lookup p =
            some ⟨cTotal p rs,
              tenthsDiv (cInbox p rs * 100) (cTotal p rs),
              tenthsDiv (cSpam p rs * 100) (cTotal p rs),
              tenthsDiv (cOther p rs * 100) (cTotal p rs),
              cInbox p rs, cSpam p rs, cOther p rs⟩)
      ∧ (cTotal p rs = 0 →
          ((analyze_provider_breakdown recipients).getD []).lookup p = none)) := by
  refine ⟨?_, ?_, ?_⟩
  · cases recipients <;> simp [analyze_provider_breakdown]
  · rintro rfl; rfl
  · rintro rs rfl p hp
    have hs : rs.foldl recipStep AllPStats.zero =
        ⟨countsFor ("Google") rs, countsFor ("Microsoft") rs,
         countsFor ("Yahoo") rs, countsFor ("Others") rs⟩ := by
      rw [foldl_recipStep]
      simp [AllPStats.zero, addPS_zero_left]
    simp only [analyze_provider_breakdown, hs, Option.getD_some]
    fin_cases hp <;>
      · refine ⟨fun hpos => ?_, fun hzero => ?_⟩ <;>
          by_cases h1 : cTotal ("Google") rs = 0 <;>
          by_cases h2 : cTotal ("Microsoft") rs = 0 <;>
          by_cases h3 : cTotal ("Yahoo") rs = 0 <;>
          by_cases h4 : cTotal ("Others") rs = 0 <;>
            simp_all [List.filter_cons, List.filter_nil, List.lookup,
              entryOf, countsFor, bne_iff_ne]

/-- Witness for C9 at a concrete two-recipient input. -/
theorem analyze_provider_breakdown_spec_witness :
    ((analyze_provider_breakdown (some ([.str ("a@gmail.com"),
        .dict (some ("b@outlook.com")) (some ("Inbox placement"))]))).getD
      []).lookup ("Google") =
    some ⟨cTotal ("Google") [.str ("a@gmail.com"),
        .dict (some ("b@outlook.com")) (some ("Inbox placement"))],
      tenthsDiv (cInbox ("Google") [.str ("a@gmail.com"),
        .dict (some ("b@outlook.com")) (some ("Inbox placement"))] * 100)
        (cTotal ("Google") [.str ("a@gmail.com"),
          .dict (some ("b@outlook.com")) (some ("Inbox placement"))]),
      tenthsDiv (cSpam ("Google") [.str ("a@gmail.com"),
        .dict (some ("b@outlook.com")) (some ("Inbox placement"))] * 100)
        (cTotal ("Google") [.str ("a@gmail.com"),
          .dict (some ("b@outlook.com")) (some ("Inbox placement"))]),
      tenthsDiv (cOther ("Google") [.str ("a@gmail.com"),
        .dict (some ("b@outlook.com")) (some ("Inbox placement"))] * 100)
        (cTotal ("Google") [.str ("a@gmail.com"),
          .dict (some ("b@outlook.com")) (some ("Inbox placement"))]),
      cInbox ("Google") [.str ("a@gmail.com"),
        .dict (some ("b@outlook.com")) (some ("Inbox placement"))],
      cSpam ("Google") [.str ("a@gmail.com"),
        .dict (some ("b@outlook.com")) (some ("Inbox placement"))],
      cOther ("Google") [.str ("a@gmail.com"),
        .dict (some ("b@outlook.com")) (some ("Inbox placement"))]⟩ :=
  (((analyze_provider_breakdown_spec (some ([.str ("a@gmail.com"),
      .dict (some ("b@outlook.com")) (some ("Inbox placement"))]))).2.2
    [.str ("a@gmail.com"), .dict (some ("b@outlook.com")) (some ("Inbox placement"))]
    rfl ("Google") (by decide)).1) (by decide)

end ConnectResources

namespace ConnectResources

/-! ## C1 — cross-bucket reconciliation -/

theorem foldl_atstep (rs : List DayRec) : ∀ t : Agg,
    rs.foldl atstep t = addAgg t (recSum (rs.filter hasDate)) := by
  induction rs with
  | nil => intro t; simp [recSum, addAgg_zero_right]
  | cons r rest ih =>
      intro t
      cases hd : r.date with
      | none =>
          rw [List.foldl_cons]
          have : hasDate r = false := by simp [hasDate, hd]
          simp [atstep, hd, this, ih]
      | some d =>
          rw [List.foldl_cons]
          have : hasDate r = true := by simp [hasDate, hd]
          simp [atstep, hd, this, ih, recSum, addAgg_assoc]

theorem lookupD_bumpYM (y y₂ : Nat) (mk : Nat × Nat) (a : Agg)
    (yd : List (Nat × List ((Nat × Nat) × Agg))) :
    lookupD y (bumpYM y₂ mk a yd) [] =
      if y₂ = y then bump mk a (lookupD y yd []) else lookupD y yd [] := by
  induction yd with
  | nil =>
      by_cases h : y₂ = y <;> simp [bumpYM, lookupD, h]
  | cons kv rest ih =>
      obtain ⟨y₃, inner⟩ := kv
      by_cases h₃ : y₃ = y₂
      · subst h₃
        by_cases h : y₃ = y <;> simp [bumpYM, lookupD, h, ih]
      · by_cases h : y₃ = y
        · subst h
          have h₄ : ¬ y₂ = y₃ := fun hc => h₃ hc.symm
          simp [bumpYM, h₃, lookupD, h₄]
        · simp [bumpYM, h₃, lookupD, h, ih]

end ConnectResources

namespace ConnectResources

theorem foldl_mstep (y : Nat) (rs : List DayRec) : ∀ yd,
    sumAgg (lookupD y (rs.foldl mstep yd) []) =
      addAgg (sumAgg (lookupD y yd []))
        (recSum (rs.filter (dateYearIs y))) := by
  induction rs with
  | nil => intro yd; simp [recSum, addAgg_zero_right]
  | cons r rest ih =>
      intro yd
      rw [List.foldl_cons]
      cases hd : r.date with
      | none =>
          have hf : dateYearIs y r = false := by simp [dateYearIs, hd]
          simp [mstep, hd, hf, ih]
      | some dt =>
          simp only [mstep, hd]
          by_cases hy : dt.y = y
          · have hfy : dateYearIs y r = true := by simp [dateYearIs, hd, hy]
            rw [ih, lookupD_bumpYM, if_pos hy, sumAgg_bump]
            simp only [List.filter_cons, hfy, if_pos, recSum]
            simp only [addAgg, Agg.mk.injEq]
            refine ⟨by omega, by omega, by omega, by omega⟩
          · have hfy : dateYearIs y r = false := by simp [dateYearIs, hd, hy]
            rw [ih, lookupD_bumpYM, if_neg hy]
            simp [List.filter_cons, hfy]

theorem foldl_wstep (nrs : List (String × DayRec)) : ∀ wcd,
    sumAgg (nrs.foldl wstep wcd) =
      addAgg (sumAgg wcd)
        (recSum ((nrs.filter (fun nr => dateYearIs targetYear nr.2)).map (·.2))) := by
  induction nrs with
  | nil => intro wcd; simp [recSum, addAgg_zero_right]
  | cons nr rest ih =>
      intro wcd
      rw [List.foldl_cons]
      cases hd : nr.2.date with
      | none =>
          have hf : dateYearIs targetYear nr.2 = false := by simp [dateYearIs, hd]
          simp [wstep, hd, hf, ih]
      | some dt =>
          simp only [wstep, hd]
          by_cases hy : dt.y = targetYear
          · have hfy : dateYearIs targetYear nr.2 = true := by
              simp [dateYearIs, hd, hy]
            rw [if_neg (show ¬ dt.y ≠ targetYear by simpa using hy)]
            rw [ih, sumAgg_bump]
            simp only [List.filter_cons, hfy, if_pos, List.map_cons, recSum]
            simp only [addAgg, Agg.mk.injEq]
            refine ⟨by omega, by omega, by omega, by omega⟩
          · have hfy : dateYearIs targetYear nr.2 = false := by
              simp [dateYearIs, hd, hy]
            rw [if_pos (show dt.y ≠ targetYear from hy)]
            simp [ih, List.filter_cons, hfy]

theorem namedRecs_map_snd (data : FetchData) :
    (namedRecs data).map (·.2) = allRecs data := by
  unfold namedRecs allRecs
  rw [List.map_flatMap]
  simp [List.map_map, Function.comp]

/-- C1: when every fetched record carries a date in the target year 2026,
the component-wise sum of all weekly `(week, label, campaign)` aggregates,
the sum of all monthly aggregates of 2026, and the all-time totals all
equal the direct component-wise sum over the input records. -/
theorem aggregate_reconciliation (data : FetchData)
    (h : ∀ r ∈ allRecs data, dateYearIs targetYear r = true) :
    sumAgg (week_camp_data data) = recSum (allRecs data)
  ∧ sumAgg (lookupD targetYear (year_data data) []) = recSum (allRecs data)
  ∧ all_time_totals data = recSum (allRecs data) := by
  have hyear : (allRecs data).filter (dateYearIs targetYear) = allRecs data :=
    List.filter_eq_self.mpr h
  have hnamed : (namedRecs data).filter (fun nr => dateYearIs targetYear nr.2) =
      namedRecs data := by
    refine List.filter_eq_self.mpr fun nr hnr => ?_
    refine h nr.2 ?_
    rw [← namedRecs_map_snd data]
    exact List.mem_map_of_mem _ hnr
  have hdate : (allRecs data).filter hasDate = allRecs data := by
    refine List.filter_eq_self.mpr fun r hr => ?_
    have := h r hr
    unfold dateYearIs at this
    unfold hasDate
    cases hd : r.date with
    | none => rw [hd] at this; cases this
    | some d => rfl
  refine ⟨?_, ?_, ?_⟩
  · unfold week_camp_data
    rw [foldl_wstep, hnamed, namedRecs_map_snd]
    simp [sumAgg, addAgg_zero_left]
  · unfold year_data
    rw [foldl_mstep, hyear]
    simp [lookupD, sumAgg, addAgg_zero_left]
  · unfold all_time_totals
    rw [foldl_atstep, hdate, addAgg_zero_left]

/-- Witness for C1 at the concrete two-record 2026 scenario. -/
theorem aggregate_reconciliation_witness :
    sumAgg (week_camp_data acmeData) = recSum (allRecs acmeData)
  ∧ sumAgg (lookupD targetYear (year_data acmeData) []) = recSum (allRecs acmeData)
  ∧ all_time_totals acmeData = recSum (allRecs acmeData) :=
  aggregate_reconciliation acmeData (by decide)

end ConnectResources

namespace ConnectResources

/-! ## C3 — the "Acme" end-to-end scenario -/

/-- C3 counterexample: in the Acme scenario the week block of Jan 12
(ISO week 3) contains one data row, not zero — the Jan-12 bucket has
`sent = 50 ≠ 0`, so the suppression test
(`sent == 0 and replies == 0 and opportunities == 0`) does not fire. -/
theorem acme_scenario_counterexample :
    (get_week_info ⟨2026, 1, 12⟩).week_num = 3
  ∧ (weekDataRows acmeData 3).length = 1 := by decide

/-- C3 (amended): the weekly-detail report for the Acme scenario has
exactly one data row in the week block of Jan 5 (ISO week 2), showing
reply rate 5.0% and opportunity rate 1.0%; the week block of Jan 12
(ISO week 3) also has exactly one data row — sent 50 with 0.0% rates, the
bucket is not suppressed because its `sent` is non-zero — and the GRAND
TOTAL row reports sent = 150. -/
theorem acme_scenario :
    (get_week_info ⟨2026, 1, 5⟩).week_num = 2
  ∧ (get_week_info ⟨2026, 1, 12⟩).week_num = 3
  ∧ weekDataRows acmeData 2 = [["", "Acme", "100", "0", "5", "1", "5.0%", "1.0%"]]
  ∧ weekDataRows acmeData 3 = [["", "Acme", "50", "0", "0", "0", "0.0%", "0.0%"]]
  ∧ grand_total_row (grandTotals acmeData) =
      ["GRAND TOTAL (YTD)", "", "150", "0", "5", "1", "3.3%", "0.7%"] := by decide

end ConnectResources

namespace ConnectResources

/-! ## C2 — suppression and subtotals -/

theorem map_lookup_self {κ β : Type} [DecidableEq κ] (l : List (κ × β)) (dflt : β)
    (h : (l.map (·.1)).Nodup) :
    (l.map (·.1)).map (fun k => lookupD k l dflt) = l.map (·.2) := by
  induction l with
  | nil => rfl
  | cons kv rest ih =>
      obtain ⟨k₁, v⟩ := kv
      simp only [List.map_cons, List.nodup_cons] at h ⊢
      have hhead : lookupD k₁ ((k₁, v) :: rest) dflt = v := by simp [lookupD]
      have htail : ∀ k ∈ rest.map (·.1),
          lookupD k ((k₁, v) :: rest) dflt = lookupD k rest dflt := by
        intro k hk
        have hne : ¬ k₁ = k := fun hc => h.1 (hc ▸ hk)
        simp [lookupD, hne]
      rw [hhead, List.map_congr_left htail, ih h.2]

theorem week_body_totals (camps : List (String × Agg)) (names : List String) :
    (week_body camps names).2.sent =
        (names.map (fun n => (lookupD n camps Agg.zero).sent)).sum
  ∧ (week_body camps names).2.replies =
        (names.map (fun n => (lookupD n camps Agg.zero).replies)).sum
  ∧ (week_body camps names).2.opportunities =
        (names.map (fun n => (lookupD n camps Agg.zero).opportunities)).sum := by
  induction names with
  | nil => simp [week_body, Agg.zero]
  | cons n rest ih =>
      simp only [week_body]
      by_cases hsup : suppressedB (lookupD n camps Agg.zero) = true
      · have h0 : ((lookupD n camps Agg.zero).sent = 0 ∧
            (lookupD n camps Agg.zero).replies = 0) ∧
            (lookupD n camps Agg.zero).opportunities = 0 := by
          simpa [suppressedB, Bool.and_eq_true] using hsup
        simp [hsup, ih, h0.1.1, h0.1.2, h0.2]
      · simp only [hsup, if_neg, Bool.not_eq_true, if_false, List.map_cons,
          List.sum_cons, addAgg]
        refine ⟨?_, ?_, ?_⟩ <;> simp [hsup, ih.1, ih.2.1, ih.2.2]

theorem week_body_rows (camps : List (String × Agg)) (names : List String) :
    (week_body camps names).1 =
      (names.filter (fun n => !suppressedB (lookupD n camps Agg.zero))).map
        (fun n => campaignRow n (lookupD n camps Agg.zero)) := by
  induction names with
  | nil => rfl
  | cons n rest ih =>
      simp only [week_body, List.filter_cons]
      by_cases hsup : suppressedB (lookupD n camps Agg.zero) = true
      · simp [hsup, ih]
      · simp only [Bool.not_eq_true] at hsup
        simp [hsup, ih]

theorem week_body_no_suppressed_row (camps : List (String × Agg))
    (names : List String) (n : String)
    (h : suppressedB (lookupD n camps Agg.zero) = true) :
    ∀ row ∈ (week_body camps names).1, row.get? 1 ≠ some n := by
  rw [week_body_rows]
  intro row hrow
  obtain ⟨m, hm, rfl⟩ := List.mem_map.mp hrow
  have hm2 := (List.mem_filter.mp hm).2
  simp only [campaignRow, List.get?]
  intro hc
  have hmn : m = n := by simpa using hc
  rw [hmn] at hm2
  rw [h] at hm2
  cases hm2

end ConnectResources

namespace ConnectResources

theorem dinsert_keys {κ β : Type} [DecidableEq κ] (k : κ) (v : β)
    (l : List (κ × β)) :
    (dinsert k v l).map (·.1) =
      if dmem k l then l.map (·.1) else l.map (·.1) ++ [k] := by
  induction l with
  | nil => simp [dinsert, dmem]
  | cons kv rest ih =>
      obtain ⟨k₂, v₂⟩ := kv
      by_cases h : k₂ = k
      · simp [dinsert, dmem, h]
      · simp only [dinsert, if_neg h, dmem, List.map_cons]
        by_cases h₂ : dmem k rest = true <;> simp [h, h₂, ih]

theorem dmem_false_not_mem {κ β : Type} [DecidableEq κ] (k : κ)
    (l : List (κ × β)) (h : dmem k l = false) : k ∉ l.map (·.1) := by
  induction l with
  | nil => simp
  | cons kv rest ih =>
      obtain ⟨k₂, v₂⟩ := kv
      simp only [dmem, Bool.or_eq_false_iff] at h
      simp only [List.map_cons, List.mem_cons]
      rintro (rfl | hm)
      · simp at h
      · exact ih h.2 hm

theorem dinsert_nodup {κ β : Type} [DecidableEq κ] (k : κ) (v : β)
    (l : List (κ × β)) (h : (l.map (·.1)).Nodup) :
    ((dinsert k v l).map (·.1)).Nodup := by
  rw [dinsert_keys]
  by_cases hm : dmem k l = true
  · simp [hm, h]
  · simp only [hm, if_neg, Bool.not_eq_true, if_false]
    simp only [Bool.not_eq_true] at hm
    rw [List.nodup_append]
    exact ⟨h, List.nodup_singleton k,
      fun a ha hb => by
        simp only [List.mem_singleton] at hb
        exact dmem_false_not_mem k l hm (hb ▸ ha)⟩

theorem addWeekEntry_outer_keys (wn : Nat) (lbl cname : String) (stats : Agg)
    (weeks : List (Nat × (String × List (String × Agg)))) :
    (addWeekEntry wn lbl cname stats weeks).map (·.1) =
      if dmem wn weeks then weeks.map (·.1) else weeks.map (·.1) ++ [wn] := by
  induction weeks with
  | nil => simp [addWeekEntry, dmem]
  | cons kv rest ih =>
      obtain ⟨wn₂, lbl₂, camps⟩ := kv
      by_cases h : wn₂ = wn
      · simp [addWeekEntry, dmem, h]
      · simp only [addWeekEntry, if_neg h, dmem, List.map_cons]
        by_cases h₂ : dmem wn rest = true <;> simp [h, h₂, ih]

theorem addWeekEntry_outer_nodup (wn : Nat) (lbl cname : String) (stats : Agg)
    (weeks : List (Nat × (String × List (String × Agg))))
    (h : (weeks.map (·.1)).Nodup) :
    ((addWeekEntry wn lbl cname stats weeks).map (·.1)).Nodup := by
  rw [addWeekEntry_outer_keys]
  by_cases hm : dmem wn weeks = true
  · simp [hm, h]
  · simp only [hm, if_neg, Bool.not_eq_true, if_false]
    simp only [Bool.not_eq_true] at hm
    rw [List.nodup_append]
    exact ⟨h, List.nodup_singleton wn,
      fun a ha hb => by
        simp only [List.mem_singleton] at hb
        exact dmem_false_not_mem wn weeks hm (hb ▸ ha)⟩

theorem addWeekEntry_inner_nodup (wn : Nat) (lbl cname : String) (stats : Agg)
    (weeks : List (Nat × (String × List (String × Agg))))
    (h : ∀ e ∈ weeks, (e.2.2.map (·.1)).Nodup) :
    ∀ e ∈ addWeekEntry wn lbl cname stats weeks,
      (e.2.2.map (·.1)).Nodup := by
  induction weeks with
  | nil =>
      intro e he
      simp only [addWeekEntry, List.mem_singleton] at he
      subst he
      simp
  | cons kv rest ih =>
      obtain ⟨wn₂, lbl₂, camps⟩ := kv
      intro e he
      by_cases hw : wn₂ = wn
      · simp only [addWeekEntry, if_pos hw, List.mem_cons] at he
        rcases he with rfl | he
        · exact dinsert_nodup cname stats camps
            (h (wn₂, lbl₂, camps) (List.mem_cons_self _ _))
        · exact h e (List.mem_cons_of_mem _ he)
      · simp only [addWeekEntry, if_neg hw, List.mem_cons] at he
        rcases he with rfl | he
        · exact h (wn₂, lbl₂, camps) (List.mem_cons_self _ _)
        · exact ih (fun e₂ he₂ => h e₂ (List.mem_cons_of_mem _ he₂)) e he

theorem weeksOf_invariant (wcd : List ((Nat × String × String) × Agg)) :
    ((weeksOf wcd).map (·.1)).Nodup ∧
    ∀ e ∈ weeksOf wcd, (e.2.2.map (·.1)).Nodup := by
  suffices key : ∀ ws, (ws.map (·.1)).Nodup →
      (∀ e ∈ ws, (e.2.2.map (·.1)).Nodup) →
      ((wcd.foldl (fun weeks kv => addWeekEntry kv.1.1 kv.1.2.1 kv.1.2.2 kv.2 weeks) ws).map (·.1)).Nodup ∧
      ∀ e ∈ wcd.foldl (fun weeks kv => addWeekEntry kv.1.1 kv.1.2.1 kv.1.2.2 kv.2 weeks) ws,
        (e.2.2.map (·.1)).Nodup by
    exact key [] (by simp) (by simp)
  induction wcd with
  | nil => intro ws h1 h2; exact ⟨h1, h2⟩
  | cons kv rest ih =>
      intro ws h1 h2
      rw [List.foldl_cons]
      exact ih _ (addWeekEntry_outer_nodup _ _ _ _ _ h1)
        (addWeekEntry_inner_nodup _ _ _ _ _ h2)

theorem lookupD_self_mem {κ β : Type} [DecidableEq κ] (k : κ)
    (l : List (κ × β)) (dflt : β) :
    lookupD k l dflt = dflt ∨ (k, lookupD k l dflt) ∈ l := by
  induction l with
  | nil => left; rfl
  | cons kv rest ih =>
      obtain ⟨k₂, v⟩ := kv
      by_cases h : k₂ = k
      · right
        subst h
        simp [lookupD]
      · rcases ih with ih | ih
        · left; simpa [lookupD, h] using ih
        · right
          simp only [lookupD, if_neg h]
          exact List.mem_cons_of_mem _ ih

theorem sumAgg_components {κ : Type} [DecidableEq κ] (l : List (κ × Agg)) :
    (sumAgg l).sent = ((l.map (·.2)).map (·.sent)).sum
  ∧ (sumAgg l).replies = ((l.map (·.2)).map (·.replies)).sum
  ∧ (sumAgg l).opportunities = ((l.map (·.2)).map (·.opportunities)).sum := by
  induction l with
  | nil => simp [sumAgg, Agg.zero]
  | cons kv rest ih => simp [sumAgg, addAgg, ih.1, ih.2.1, ih.2.2]

theorem weekTotals_bucket_sums (camps : List (String × Agg))
    (h : (camps.map (·.1)).Nodup) :
    (week_body camps (List.insertionSort nameLe (camps.map (·.1)))).2.sent =
        (sumAgg camps).sent
  ∧ (week_body camps (List.insertionSort nameLe (camps.map (·.1)))).2.replies =
        (sumAgg camps).replies
  ∧ (week_body camps (List.insertionSort nameLe (camps.map (·.1)))).2.opportunities =
        (sumAgg camps).opportunities := by
  have hperm : List.Perm (List.insertionSort nameLe (camps.map (·.1)))
      (camps.map (·.1)) := List.perm_insertionSort _ _
  have hlk := map_lookup_self camps Agg.zero h
  have hT := week_body_totals camps (List.insertionSort nameLe (camps.map (·.1)))
  have hS := sumAgg_components camps
  refine ⟨?_, ?_, ?_⟩
  · rw [hT.1, hS.1,
      (hperm.map (fun n => (lookupD n camps Agg.zero).sent)).sum_eq]
    have hc := congrArg (fun l => (l.map (fun a : Agg => a.sent)).sum) hlk
    simpa [List.map_map, Function.comp] using hc
  · rw [hT.2.1, hS.2.1,
      (hperm.map (fun n => (lookupD n camps Agg.zero).replies)).sum_eq]
    have hc := congrArg (fun l => (l.map (fun a : Agg => a.replies)).sum) hlk
    simpa [List.map_map, Function.comp] using hc
  · rw [hT.2.2, hS.2.2,
      (hperm.map (fun n => (lookupD n camps Agg.zero).opportunities)).sum_eq]
    have hc := congrArg (fun l => (l.map (fun a : Agg => a.opportunities)).sum) hlk
    simpa [List.map_map, Function.comp] using hc

end ConnectResources

namespace ConnectResources

theorem campaign_sections_totals
    (weeks : List (Nat × (String × List (String × Agg)))) (wns : List Nat) :
    (campaign_sections weeks wns).2.sent =
        (wns.map (fun wn => (week_body (lookupD wn weeks ("", [])).2
          (List.insertionSort nameLe
            ((lookupD wn weeks ("", [])).2.map (·.1)))).2.sent)).sum
  ∧ (campaign_sections weeks wns).2.replies =
        (wns.map (fun wn => (week_body (lookupD wn weeks ("", [])).2
          (List.insertionSort nameLe
            ((lookupD wn weeks ("", [])).2.map (·.1)))).2.replies)).sum
  ∧ (campaign_sections weeks wns).2.opportunities =
        (wns.map (fun wn => (week_body (lookupD wn weeks ("", [])).2
          (List.insertionSort nameLe
            ((lookupD wn weeks ("", [])).2.map (·.1)))).2.opportunities)).sum := by
  induction wns with
  | nil => simp [campaign_sections, Agg.zero]
  | cons wn rest ih =>
      simp [campaign_sections, addAgg, ih.1, ih.2.1, ih.2.2]

/-- C2 (amended): a campaign-week bucket whose `sent`, `replies` and
`opportunities` are all zero produces no data row in its week block, and
— because those three counters are zero — every WEEKLY TOTAL (and hence
the GRAND TOTAL) `sent`/`replies`/`opportunities` value equals the sum
over all of the week's buckets, suppressed ones included. The claim's
stronger form fails for `new_leads`: a suppressed bucket's non-zero
`new_leads` is excluded from the totals (see the counterexample). -/
theorem suppression_subtotals (data : FetchData) :
    (∀ wn : Nat,
        (weekTotals data wn).sent = (sumAgg (week_camps data wn)).sent
      ∧ (weekTotals data wn).replies = (sumAgg (week_camps data wn)).replies
      ∧ (weekTotals data wn).opportunities =
          (sumAgg (week_camps data wn)).opportunities)
  ∧ (∀ (wn : Nat) (n : String),
        suppressedB (lookupD n (week_camps data wn) Agg.zero) = true →
        ∀ row ∈ weekDataRows data wn, row.get? 1 ≠ some n)
  ∧ (grandTotals data).sent =
        ((weeksOf (week_camp_data data)).map (fun w => (sumAgg w.2.2).sent)).sum
  ∧ (grandTotals data).replies =
        ((weeksOf (week_camp_data data)).map (fun w => (sumAgg w.2.2).replies)).sum
  ∧ (grandTotals data).opportunities =
        ((weeksOf (week_camp_data data)).map
          (fun w => (sumAgg w.2.2).opportunities)).sum := by
  have hinner : ∀ wn : Nat,
      (((lookupD wn (weeksOf (week_camp_data data)) ("", [])).2.map (·.1)).Nodup) := by
    intro wn
    rcases lookupD_self_mem wn (weeksOf (week_camp_data data)) ("", []) with hd | hd
    · rw [hd]; simp
    · exact (weeksOf_invariant _).2 _ hd
  have houter := (weeksOf_invariant (week_camp_data data)).1
  refine ⟨?_, ?_, ?_, ?_, ?_⟩
  · intro wn
    exact weekTotals_bucket_sums (week_camps data wn) (hinner wn)
  · intro wn n h
    exact week_body_no_suppressed_row (week_camps data wn) _ n h
  all_goals {
    have hperm : List.Perm
        (List.insertionSort (· ≤ ·)
          ((weeksOf (week_camp_data data)).map (·.1)))
        ((weeksOf (week_camp_data data)).map (·.1)) :=
      List.perm_insertionSort _ _
    have hlk := map_lookup_self (weeksOf (week_camp_data data))
      ("", ([] : List (String × Agg))) houter
    have hcs := campaign_sections_totals (weeksOf (week_camp_data data))
      (List.insertionSort (· ≤ ·) ((weeksOf (week_camp_data data)).map (·.1)))
    unfold grandTotals
    first
    | (rw [hcs.1,
        List.map_congr_left (fun wn _ =>
          (weekTotals_bucket_sums (lookupD wn (weeksOf (week_camp_data data))
            ("", [])).2 (hinner wn)).1),
        (hperm.map (fun wn =>
          (sumAgg (lookupD wn (weeksOf (week_camp_data data)) ("", [])).2).sent)).sum_eq]
       have hc := congrArg
         (fun l => (l.map (fun p : String × List (String × Agg) =>
           (sumAgg p.2).sent)).sum) hlk
       simpa [List.map_map, Function.comp] using hc)
    | (rw [hcs.2.1,
        List.map_congr_left (fun wn _ =>
          (weekTotals_bucket_sums (lookupD wn (weeksOf (week_camp_data data))
            ("", [])).2 (hinner wn)).2.1),
        (hperm.map (fun wn =>
          (sumAgg (lookupD wn (weeksOf (week_camp_data data)) ("", [])).2).replies)).sum_eq]
       have hc := congrArg
         (fun l => (l.map (fun p : String × List (String × Agg) =>
           (sumAgg p.2).replies)).sum) hlk
       simpa [List.map_map, Function.comp] using hc)
    | (rw [hcs.2.2,
        List.map_congr_left (fun wn _ =>
          (weekTotals_bucket_sums (lookupD wn (weeksOf (week_camp_data data))
            ("", [])).2 (hinner wn)).2.2),
        (hperm.map (fun wn =>
          (sumAgg (lookupD wn (weeksOf (week_camp_data data)) ("", [])).2).opportunities)).sum_eq]
       have hc := congrArg
         (fun l => (l.map (fun p : String × List (String × Agg) =>
           (sumAgg p.2).opportunities)).sum) hlk
       simpa [List.map_map, Function.comp] using hc) }

/-- C2 counterexample: a bucket with `sent = replies = opportunities = 0`
but `new_leads = 5` is suppressed (no data row), yet its `new_leads` does
not reach the WEEKLY TOTAL: suppression does change the `New Leads`
subtotal, so the claim as stated is false. -/
theorem suppression_counterexample :
    suppressedB (lookupD ("A") (week_camps nlData 2) Agg.zero) = true
  ∧ (lookupD ("A") (week_camps nlData 2) Agg.zero).new_leads = 5
  ∧ weekDataRows nlData 2 = []
  ∧ (weekTotals nlData 2).new_leads ≠ (sumAgg (week_camps nlData 2)).new_leads := by
  decide

/-- Witness for C2 (amended) at the concrete suppressed-bucket input. -/
theorem suppression_subtotals_witness :
    (weekTotals nlData 2).sent = (sumAgg (week_camps nlData 2)).sent
  ∧ ∀ row ∈ weekDataRows nlData 2, row.get? 1 ≠ some ("A") :=
  ⟨((suppression_subtotals nlData).1 2).1,
   (suppression_subtotals nlData).2.1 2 ("A") (by decide)⟩

end ConnectResources

namespace ConnectResources

/-! ## C6 — ordering policy of the three reports -/

/-- C6: months within a year section are emitted in ascending calendar
order whatever the encounter order (and the emitted keys are exactly the
buckets' keys); week blocks are in ascending ISO week number order;
campaign rows within a week block are in code-point lexicographic order of
name; agent rows are in descending `total_sent` order, and the sort is
stable — any two agents with equal `total_sent` keep their encounter
order. -/
theorem report_ordering (data : FetchData) :
    List.Sorted monthKeyLe (sortedMonthKeys (lookupD 2026 (year_data data) []))
  ∧ List.Sorted monthKeyLe (sortedMonthKeys (lookupD 2025 (year_data data) []))
  ∧ List.Perm (sortedMonthKeys (lookupD 2026 (year_data data) []))
      ((lookupD 2026 (year_data data) []).map (·.1))
  ∧ List.Sorted (· ≤ ·)
      (List.insertionSort (· ≤ ·) ((weeksOf (week_camp_data data)).map (·.1)))
  ∧ List.Perm
      (List.insertionSort (· ≤ ·) ((weeksOf (week_camp_data data)).map (·.1)))
      ((weeksOf (week_camp_data data)).map (·.1))
  ∧ (∀ e ∈ weeksOf (week_camp_data data),
        List.Sorted nameLe (List.insertionSort nameLe (e.2.2.map (·.1))))
  ∧ List.Sorted agentGeRel (sorted_agents data)
  ∧ List.Perm (sorted_agents data) (agent_data data)
  ∧ (∀ a b : String × AgentStats, List.Sublist [a, b] (agent_data data) →
        a.2.total_sent = b.2.total_sent →
        List.Sublist [a, b] (sorted_agents data)) := by
  refine ⟨List.sorted_insertionSort _ _, List.sorted_insertionSort _ _,
    List.perm_insertionSort _ _, List.sorted_insertionSort _ _,
    List.perm_insertionSort _ _, fun e _ => List.sorted_insertionSort _ _,
    List.sorted_insertionSort _ _, List.perm_insertionSort _ _, ?_⟩
  intro a b hsub htie
  exact List.pair_sublist_insertionSort
    (show agentGeRel a b by unfold agentGeRel; omega) hsub

/-- Four accounts for the ordering witness: two zero-sent roster-only
agents (a tie kept in roster order by the stable sort). -/
def agData : FetchData :=
  { campaigns := [], campaign_analytics := [],
    accounts := [⟨some ("b@x.com")⟩, ⟨some ("a@x.com")⟩],
    account_analytics := none }

/-- Witness for C6 at concrete inputs: the tied agents keep their
encounter order (`b@x.com` before `a@x.com` although lexicographically
larger), and the Acme week block's campaign list is sorted. -/
theorem report_ordering_witness :
    List.Sorted agentGeRel (sorted_agents agData)
  ∧ List.Sublist [(("b@x.com" : String), (⟨0, 0⟩ : AgentStats)),
      ("a@x.com", ⟨0, 0⟩)] (sorted_agents agData)
  ∧ List.Sorted nameLe (List.insertionSort nameLe
      ((((2 : Nat), lookupD 2 (weeksOf (week_camp_data acmeData))
        (("" : String), ([] : List (String × Agg))))).2.2.map (·.1))) :=
  ⟨(report_ordering agData).2.2.2.2.2.2.1,
   (report_ordering agData).2.2.2.2.2.2.2.2
     (("b@x.com" : String), (⟨0, 0⟩ : AgentStats)) (("a@x.com" : String), ⟨0, 0⟩)
     (by decide) rfl,
   (report_ordering acmeData).2.2.2.2.2.1
     ((2 : Nat), lookupD 2 (weeksOf (week_camp_data acmeData))
       (("" : String), ([] : List (String × Agg)))) (by decide)⟩

end ConnectResources

namespace ConnectResources

/-! ## C7 — missing/partial fields -/

theorem lookupD_mapped {κ β : Type} [DecidableEq κ] (k : κ)
    (l : List (κ × β)) (g : β → β) (dflt : β) (hg : g dflt = dflt) :
    lookupD k (l.map (fun kv => (kv.1, g kv.2))) dflt = g (lookupD k l dflt) := by
  induction l with
  | nil => simp [lookupD, hg]
  | cons kv rest ih =>
      obtain ⟨k₂, v⟩ := kv
      by_cases h : k₂ = k <;> simp [lookupD, h, ih]

theorem foldl_skip_filter {σ α : Type} (step : σ → α → σ) (p : α → Bool)
    (hskip : ∀ s a, p a = false → step s a = s) (rs : List α) :
    ∀ s, (rs.filter p).foldl step s = rs.foldl step s := by
  induction rs with
  | nil => intro s; rfl
  | cons a rest ih =>
      intro s
      by_cases h : p a = true
      · simp [List.filter_cons, h, ih]
      · simp only [Bool.not_eq_true] at h
        simp [List.filter_cons, h, ih, hskip s a h]

theorem foldl_map_eq {σ α : Type} (step : σ → α → σ) (f : α → α)
    (hstep : ∀ s a, step s (f a) = step s a) (rs : List α) :
    ∀ s, (rs.map f).foldl step s = rs.foldl step s := by
  induction rs with
  | nil => intro s; rfl
  | cons a rest ih =>
      intro s
      simp [List.foldl_cons, hstep s a, ih]

theorem allRecs_filterDated (data : FetchData) :
    allRecs (filterDated data) = (allRecs data).filter hasDate := by
  unfold allRecs filterDated
  rw [List.filter_flatMap]
  congr 1
  funext c
  exact lookupD_mapped c.id data.campaign_analytics
    (fun l => l.filter hasDate) [] rfl

theorem namedRecs_filterDated (data : FetchData) :
    namedRecs (filterDated data) =
      (namedRecs data).filter (fun nr => hasDate nr.2) := by
  unfold namedRecs filterDated
  rw [List.filter_flatMap]
  congr 1
  funext c
  rw [lookupD_mapped c.id data.campaign_analytics
    (fun l => l.filter hasDate) [] rfl]
  rw [List.filter_map]
  rfl

theorem allRecs_fillData (data : FetchData) :
    allRecs (fillData data) = (allRecs data).map fillCounters := by
  unfold allRecs fillData
  rw [List.map_flatMap]
  congr 1
  funext c
  exact lookupD_mapped c.id data.campaign_analytics
    (fun l => l.map fillCounters) [] rfl

theorem namedRecs_fillData (data : FetchData) :
    namedRecs (fillData data) =
      (namedRecs data).map (fun nr => (nr.1, fillCounters nr.2)) := by
  unfold namedRecs fillData
  rw [List.map_flatMap]
  congr 1
  funext c
  rw [lookupD_mapped c.id data.campaign_analytics
    (fun l => l.map fillCounters) [] rfl]
  rw [List.map_map, List.map_map]
  rfl

theorem recAgg_fillCounters (r : DayRec) : recAgg (fillCounters r) = recAgg r := by
  cases r; simp [recAgg, fillCounters]

theorem mstep_skip (yd : List (Nat × List ((Nat × Nat) × Agg))) (r : DayRec)
    (h : hasDate r = false) : mstep yd r = yd := by
  unfold hasDate at h
  unfold mstep
  cases hd : r.date with
  | none => rfl
  | some d => rw [hd] at h; simp at h

theorem atstep_skip (t : Agg) (r : DayRec) (h : hasDate r = false) :
    atstep t r = t := by
  unfold hasDate at h
  unfold atstep
  cases hd : r.date with
  | none => rfl
  | some d => rw [hd] at h; simp at h

theorem wstep_skip (wcd : List ((Nat × String × String) × Agg))
    (nr : String × DayRec) (h : hasDate nr.2 = false) : wstep wcd nr = wcd := by
  unfold hasDate at h
  unfold wstep
  cases hd : nr.2.date with
  | none => rfl
  | some d => rw [hd] at h; simp at h

theorem mstep_fill (yd : List (Nat × List ((Nat × Nat) × Agg))) (r : DayRec) :
    mstep yd (fillCounters r) = mstep yd r := by
  unfold mstep
  rw [show (fillCounters r).date = r.date from rfl, recAgg_fillCounters]

theorem atstep_fill (t : Agg) (r : DayRec) :
    atstep t (fillCounters r) = atstep t r := by
  unfold atstep
  rw [show (fillCounters r).date = r.date from rfl, recAgg_fillCounters]

theorem wstep_fill (wcd : List ((Nat × String × String) × Agg))
    (nr : String × DayRec) :
    wstep wcd (nr.1, fillCounters nr.2) = wstep wcd nr := by
  unfold wstep
  rw [show (nr.1, fillCounters nr.2).2.date = nr.2.date from rfl,
    show (nr.1, fillCounters nr.2).2 = fillCounters nr.2 from rfl,
    recAgg_fillCounters]

end ConnectResources

namespace ConnectResources

theorem agentStep_skip (ad : List (String × AgentStats)) (day : AccountDay)
    (h : truthyEmail day = false) : agentStep ad day = ad := by
  unfold truthyEmail at h
  unfold agentStep
  cases hd : day.email_account with
  | none => rfl
  | some e =>
      rw [hd] at h
      simp only [bne_iff_ne, ne_eq] at h
      have : e = "" := by simpa using h
      simp [this]

theorem agentStep_fill (ad : List (String × AgentStats)) (day : AccountDay) :
    agentStep ad (⟨day.email_account, some (day.sent.getD 0)⟩ : AccountDay) =
      agentStep ad day := rfl

theorem agent_data_filterAgentDays (data : FetchData) :
    agent_data (filterAgentDays data) = agent_data data := by
  unfold agent_data filterAgentDays
  cases ha : data.account_analytics with
  | none => simp [ha]
  | some days =>
      have hbase : (days.filter truthyEmail).foldl agentStep [] =
          days.foldl agentStep [] :=
        foldl_skip_filter agentStep truthyEmail agentStep_skip days []
      simp [ha, hbase]

theorem agent_data_fillData (data : FetchData) :
    agent_data (fillData data) = agent_data data := by
  unfold agent_data fillData
  cases ha : data.account_analytics with
  | none => simp [ha]
  | some days =>
      have hbase : ((days.map fun d =>
          (⟨d.email_account, some (d.sent.getD 0)⟩ : AccountDay)).foldl
            agentStep []) = days.foldl agentStep [] :=
        foldl_map_eq agentStep _ (fun s a => agentStep_fill s a) days []
      simp [ha, hbase]

theorem digestFold_fill (ws we : Nat) (rs : List DayRec) :
    ∀ acc, digestFold ws we (rs.map fillCounters) acc = digestFold ws we rs acc := by
  induction rs with
  | nil => intro acc; rfl
  | cons r rest ih =>
      intro acc
      simp only [List.map_cons, digestFold]
      rw [show (fillCounters r).date = r.date from rfl]
      cases hd : r.date with
      | none => rfl
      | some d => exact ih _

theorem digestFold_isSome (ws we : Nat) (rs : List DayRec) :
    ∀ acc, (digestFold ws we rs acc).isSome = true ↔
      ∀ r ∈ rs, r.date.isSome = true := by
  induction rs with
  | nil => intro acc; simp [digestFold]
  | cons r rest ih =>
      intro acc
      simp only [digestFold]
      cases hd : r.date with
      | none => simp [hd]
      | some d => simp [hd, ih]

theorem flatMap_fillData (data : FetchData) :
    (fillData data).campaign_analytics.flatMap (·.2) =
      (data.campaign_analytics.flatMap (·.2)).map fillCounters := by
  unfold fillData
  rw [show ({ data with
      campaign_analytics :=
        data.campaign_analytics.map fun kv => (kv.1, kv.2.map fillCounters),
      account_analytics := data.account_analytics.map fun days =>
        days.map fun d => ⟨d.email_account, some (d.sent.getD 0)⟩ } :
    FetchData).campaign_analytics =
      data.campaign_analytics.map fun kv => (kv.1, kv.2.map fillCounters) from rfl]
  rw [List.flatMap_map, List.map_flatMap]

/-- C7 (amended): the monthly/all-time, weekly and agent aggregations skip
a record whose `date` (or `email_account`) is absent and treat every
absent counter as zero, never failing; the email digest likewise treats
absent counters as zero, but it reads `day['date']` with a bare subscript,
so it fails with `KeyError` on a record without a date — it is defined
exactly when every record carries a date (see the counterexample). -/
theorem missing_fields_policy (data : FetchData) (today : Date) :
    year_data (filterDated data) = year_data data
  ∧ all_time_totals (filterDated data) = all_time_totals data
  ∧ week_camp_data (filterDated data) = week_camp_data data
  ∧ year_data (fillData data) = year_data data
  ∧ all_time_totals (fillData data) = all_time_totals data
  ∧ week_camp_data (fillData data) = week_camp_data data
  ∧ agent_data (filterAgentDays data) = agent_data data
  ∧ agent_data (fillData data) = agent_data data
  ∧ digest_totals today (fillData data).campaign_analytics =
      digest_totals today data.campaign_analytics
  ∧ ((digest_totals today data.campaign_analytics).isSome = true ↔
      ∀ r ∈ data.campaign_analytics.flatMap (·.2), r.date.isSome = true) := by
  refine ⟨?_, ?_, ?_, ?_, ?_, ?_,
    agent_data_filterAgentDays data, agent_data_fillData data, ?_, ?_⟩
  · unfold year_data
    rw [allRecs_filterDated, foldl_skip_filter mstep hasDate mstep_skip]
  · unfold all_time_totals
    rw [allRecs_filterDated, foldl_skip_filter atstep hasDate atstep_skip]
  · unfold week_camp_data
    rw [namedRecs_filterDated,
      foldl_skip_filter wstep (fun nr => hasDate nr.2)
        (fun s nr h => wstep_skip s nr h)]
  · unfold year_data
    rw [allRecs_fillData, foldl_map_eq mstep fillCounters mstep_fill]
  · unfold all_time_totals
    rw [allRecs_fillData, foldl_map_eq atstep fillCounters atstep_fill]
  · unfold week_camp_data
    rw [namedRecs_fillData,
      foldl_map_eq wstep (fun nr => (nr.1, fillCounters nr.2))
        (fun s nr => wstep_fill s nr)]
  · unfold digest_totals
    rw [flatMap_fillData, digestFold_fill]
  · unfold digest_totals
    exact digestFold_isSome _ _ _ _

/-- C7 counterexample: the digest computation fails (`KeyError` on
`day['date']`, embedded as `none`) on a record whose `date` field is
absent, although its other fields are present — the other aggregations
skip such a record, so "every aggregation step … never raises a hard
failure" is false for the digest. -/
theorem missing_fields_counterexample :
    digest_totals ⟨2026, 1, 15⟩
      [(some ("c1"), [⟨none, some 5, some 1, some 2, some 3⟩])] = none
  ∧ all_time_totals
      { campaigns := [⟨some ("c1"), some ("C")⟩],
        campaign_analytics := [(some ("c1"),
          [⟨none, some 5, some 1, some 2, some 3⟩])],
        accounts := [], account_analytics := none } = Agg.zero := by
  decide

end ConnectResources

namespace ConnectResources

/-- Witness for C7 (amended) at the concrete Acme data, whose records all
carry dates, so the digest is defined. -/
theorem missing_fields_policy_witness :
    (digest_totals ⟨2026, 1, 15⟩ acmeData.campaign_analytics).isSome = true :=
  ((missing_fields_policy acmeData ⟨2026, 1, 15⟩).2.2.2.2.2.2.2.2.2).mpr
    (by decide)

end ConnectResources
